import Mathlib

/-!
# STUN codec (`stun/message.hpp`): embedding and verified properties

The file covers the message type, the 20-byte message header and the
attribute classes `StunAttribute` and `MappedAddress`.  The C++ codec works on a `std::vector<std::byte>` through an iterator `begin`
taken by reference and an iterator `end` taken by value.  The embedding keeps
both explicit:

* the vector is a `List Byte`, an iterator is an index (`Nat`) into it;
* a member function is a function from the object, the vector and the cursor
  (`St`) to a `Result`: normal return, a thrown exception together with the
  state at the throw (C++ keeps every assignment made before the throw), or
  `undefined` when an iterator outside the vector is dereferenced;
* `int` fields are `Int`, `uint32_t` is `Nat` reduced modulo `2 ^ 32`,
  `std::byte` is `Fin 256`.
-/

namespace stunmsg

/-! ## Bytes, buffers and outcomes -/

/-- The type `std::byte`: an 8-bit value. -/
abbrev Byte := Fin 256

/-- Conversion `std::byte(n)` of an unsigned value: keeps the low eight bits. -/
def Byte.ofNat (n : Nat) : Byte := ⟨n % 256, Nat.mod_lt n (by decide)⟩

/-- Conversion `std::byte{i}` of an `int`: keeps the low eight bits of the
two's-complement representation. -/
def Byte.ofInt (i : Int) : Byte := Byte.ofNat (i % 256).toNat

/-- Conversion `static_cast<int>(b)`. -/
def Byte.toInt (b : Byte) : Int := (b.val : Int)

/-- The operator `b << shift` of `std::byte`: the shifted value converted back
to `unsigned char`. -/
def Byte.shl (b : Byte) (shift : Nat) : Byte := Byte.ofNat (b.val <<< shift)

/-- The exceptions the codec throws. -/
inductive Exception
  | length_error
  | domain_error
deriving DecidableEq, Repr

/-- What a call does: it returns, it throws (the state is the one reached when
the exception leaves the function), or it dereferences an iterator outside the
vector, which C++ leaves undefined. -/
inductive Result (σ : Type)
  | ok (s : σ)
  | throw (e : Exception) (s : σ)
  | undefined
deriving DecidableEq, Repr

/-- Sequencing of two statements: the second runs only when the first returns;
an exception propagates with the state reached so far. -/
def Result.andThen {σ : Type} (r : Result σ) (k : σ → Result σ) : Result σ :=
  match r with
  | .ok s => k s
  | .throw e s => .throw e s
  | .undefined => .undefined

/-- The same outcome seen through a change of state representation. -/
def Result.map {σ τ : Type} (f : σ → τ) (r : Result σ) : Result τ :=
  match r with
  | .ok s => .ok (f s)
  | .throw e s => .throw e (f s)
  | .undefined => .undefined

/-- The object `self`, the vector `buf` behind the iterators and the position
`begin` of the iterator passed by reference. -/
structure St (α : Type) where
  self : α
  buf : List Byte
  begin : Nat
deriving DecidableEq, Repr

/-- The call `std::distance(begin, end)`. -/
def distance (begin end_ : Nat) : Int := (end_ : Int) - (begin : Int)

/-- The statement `*begin++ = v`. -/
def store {α : Type} (s : St α) (v : Byte) : Result (St α) :=
  if s.begin < s.buf.length then
    .ok { s with buf := s.buf.set s.begin v, begin := s.begin + 1 }
  else .undefined

/-- The expression `*begin++`, its value handed to the rest of the statement. -/
def load {α : Type} (s : St α) (k : Byte → St α → Result (St α)) : Result (St α) :=
  match s.buf[s.begin]? with
  | some b => k b { s with begin := s.begin + 1 }
  | none => .undefined

/-! ## Constants and enumerations -/

def BYTE_MASK : Nat := 0xFF

def SHIFT_ONE_BYTES : Nat := 8
def SHIFT_TWO_BYTES : Nat := 16
def SHIFT_THREE_BYTES : Nat := 24

def MESSAGE_TYPE_SIZE : Int := 2
def MAGIC_COOKIE : Nat := 0x2112A442

/-- The scoped enumeration `StunMessageClass`: its underlying type is `int`
and `StunMessageClass(i)` is defined for every `int`, so a value is an `Int`. -/
abbrev StunMessageClass := Int

def StunMessageClass.REQUEST : StunMessageClass := 0
def StunMessageClass.INDICATION : StunMessageClass := 1
def StunMessageClass.SUCCESS_RESPONSE : StunMessageClass := 2
def StunMessageClass.ERROR_RESPONSE : StunMessageClass := 3

/-- The scoped enumeration `StunMethod`, underlying type `int`. -/
abbrev StunMethod := Int

def StunMethod.BINDING : StunMethod := 1

/-! ## `StunMessageType` -/

structure StunMessageType where
  class_ : StunMessageClass
  method_ : StunMethod
deriving DecidableEq, Repr

namespace StunMessageType

/-- The value-initialised object `StunMessageType()`: both members zero. -/
def default_ : StunMessageType := { class_ := 0, method_ := 0 }

/-- The constructor `StunMessageType(sm_class, sm_method)`. -/
def mk_ (sm_class : StunMessageClass) (sm_method : StunMethod) : StunMessageType :=
  { class_ := sm_class, method_ := sm_method }

def ToBytes (s : St StunMessageType) (end_ : Nat) : Result (St StunMessageType) :=
  if distance s.begin end_ = 2 then
    (store s (Byte.ofInt (Int.land s.self.class_ 0x02))).andThen
      (fun s1 => store s1 (Byte.ofInt ((Int.land s1.self.class_ 0x01) <<< (4 : Int))))
  else .ok s

def FromBytes (s : St StunMessageType) (end_ : Nat) : Result (St StunMessageType) :=
  let from_class : Int := 0
  if distance s.begin end_ = 2 then
    load s fun b0 s1 =>
    let from_class := from_class + (b0.shl 1).toInt
    load s1 fun b1 s2 =>
    let from_class := from_class + Int.land (b1.toInt >>> 4) 0x1
    .ok { s2 with self := { class_ := from_class, method_ := StunMethod.BINDING } }
  else .throw .length_error s

/-- The member `operator==`. -/
def eq (lhs rhs : StunMessageType) : Bool :=
  lhs.class_ == rhs.class_ && lhs.method_ == rhs.method_

end StunMessageType

/-! ## `StunMessage` -/

/-- The type `std::array<std::byte, 12>`. -/
abbrev Array12 := { l : List Byte // l.length = 12 }

/-- The call `fill(v)` on a `std::array<std::byte, 12>`. -/
def Array12.fill (v : Byte) : Array12 := ⟨List.replicate 12 v, List.length_replicate 12 v⟩

/-- The call `std::memcpy(&array, &buf[p], 12)` when the vector holds the
twelve bytes. -/
def Array12.copyFrom (buf : List Byte) (p : Nat) (h : p + 12 ≤ buf.length) : Array12 :=
  ⟨(buf.drop p).take 12, by rw [List.length_take, List.length_drop]; omega⟩

structure StunMessage where
  header_length_ : Int := 158
  magic_cookie_ : Nat := MAGIC_COOKIE
  stun_message_type_ : StunMessageType
  message_length_ : Int := 0
  transaction_id_ : Array12
deriving DecidableEq, Repr

namespace StunMessage

/-- The constructor `StunMessage()`. -/
def default_ : StunMessage :=
  { stun_message_type_ := StunMessageType.default_, transaction_id_ := Array12.fill 0 }

/-- The constructor `StunMessage(sm_class, sm_method)`. -/
def mk_ (sm_class : StunMessageClass) (sm_method : StunMethod) : StunMessage :=
  { stun_message_type_ := StunMessageType.mk_ sm_class sm_method,
    transaction_id_ := Array12.fill 0 }

def SetMessageLength (self : StunMessage) (message_length : Int) : StunMessage :=
  { self with message_length_ := message_length }

def SetTransactionId (self : StunMessage) (value : Array12) : StunMessage :=
  { self with transaction_id_ := value }

/-- The member `operator==`; `header_length_` is not compared. -/
def eq (lhs rhs : StunMessage) : Bool :=
  if lhs.stun_message_type_.eq rhs.stun_message_type_ &&
      lhs.message_length_ == rhs.message_length_ &&
      lhs.magic_cookie_ == rhs.magic_cookie_ &&
      lhs.transaction_id_ == rhs.transaction_id_ then
    true
  else
    false

/-- A member call `stun_message_type_.f(begin, end)`: `f` runs on the member
object, sharing the vector and the cursor. -/
def callType (f : St StunMessageType → Nat → Result (St StunMessageType))
    (s : St StunMessage) (end_ : Nat) : Result (St StunMessage) :=
  let back : St StunMessageType → St StunMessage := fun t =>
    { self := { s.self with stun_message_type_ := t.self }, buf := t.buf, begin := t.begin }
  (f { self := s.self.stun_message_type_, buf := s.buf, begin := s.begin } end_).map back

def MessageLengthToBytes (s : St StunMessage) (end_ : Nat) : Result (St StunMessage) :=
  if distance s.begin end_ = 2 then
    (store s (Byte.ofInt (s.self.message_length_ >>> SHIFT_ONE_BYTES))).andThen
      (fun s1 => store s1 (Byte.ofInt (Int.land s1.self.message_length_ BYTE_MASK)))
  else .ok s

def MessageLengthFromBytes (s : St StunMessage) (end_ : Nat) : Result (St StunMessage) :=
  let s := { s with self := { s.self with message_length_ := 0 } }
  if distance s.begin end_ = 2 then
    load s fun b0 s1 =>
    let s1 := { s1 with self := { s1.self with
      message_length_ := s1.self.message_length_ + (b0.toInt <<< (SHIFT_ONE_BYTES : Int)) } }
    load s1 fun b1 s2 =>
    .ok { s2 with self := { s2.self with
      message_length_ := s2.self.message_length_ + Int.land b1.toInt 0xFF } }
  else .throw .length_error s

def MagicCookieToBytes (s : St StunMessage) (end_ : Nat) : Result (St StunMessage) :=
  let s := { s with self := { s.self with magic_cookie_ := MAGIC_COOKIE } }
  if distance s.begin end_ = 4 then
    (store s (Byte.ofNat ((s.self.magic_cookie_ >>> SHIFT_THREE_BYTES) &&& BYTE_MASK))).andThen
      (fun s1 =>
        (store s1 (Byte.ofNat ((s1.self.magic_cookie_ >>> SHIFT_TWO_BYTES) &&& BYTE_MASK))).andThen
          (fun s2 =>
            (store s2 (Byte.ofNat ((s2.self.magic_cookie_ >>> SHIFT_ONE_BYTES) &&& BYTE_MASK))).andThen
              (fun s3 => store s3 (Byte.ofNat (s3.self.magic_cookie_ &&& BYTE_MASK)))))
  else .throw .length_error s

/-- The statement `magic_cookie_ += v` in `uint32_t` arithmetic. -/
def addCookie (s : St StunMessage) (v : Nat) : St StunMessage :=
  { s with self := { s.self with
    magic_cookie_ := (s.self.magic_cookie_ + v % 2 ^ 32) % 2 ^ 32 } }

def MagicCookieFromBytes (s : St StunMessage) (end_ : Nat) : Result (St StunMessage) :=
  let s := { s with self := { s.self with magic_cookie_ := 0 } }
  (if distance s.begin end_ = 4 then
    load s fun b0 s1 =>
    load (addCookie s1 (b0.val <<< 24)) fun b1 s2 =>
    load (addCookie s2 (b1.val <<< 16)) fun b2 s3 =>
    load (addCookie s3 (b2.val <<< 8)) fun b3 s4 =>
    .ok (addCookie s4 b3.val)
  else .throw .length_error s).andThen
    (fun s5 =>
      if s5.self.magic_cookie_ ≠ MAGIC_COOKIE then .throw .domain_error s5
      else .ok s5)

/-- The call `std::memcpy(&(*begin), &transaction_id_, 12)` under its length
test; the cursor is not moved. -/
def TransactionIdToBytes (s : St StunMessage) (end_ : Nat) : Result (St StunMessage) :=
  if distance s.begin end_ = 12 then
    if s.begin + 12 ≤ s.buf.length then
      .ok { s with buf := s.buf.take s.begin ++ s.self.transaction_id_.val ++
                          s.buf.drop (s.begin + 12) }
    else .undefined
  else .throw .length_error s

/-- The call `std::memcpy(&transaction_id_, &(*begin), 12)` under its length
test; the cursor is not moved and the other branch does nothing. -/
def TransactionIdFromBytes (s : St StunMessage) (end_ : Nat) : Result (St StunMessage) :=
  if distance s.begin end_ = 12 then
    if h : s.begin + 12 ≤ s.buf.length then
      .ok { s with self := { s.self with
        transaction_id_ := Array12.copyFrom s.buf s.begin h } }
    else .undefined
  else .ok s

/-- The parameter `_end` is the caller's end iterator; the body never uses it. -/
def ToBytes (s : St StunMessage) (_end : Nat) : Result (St StunMessage) :=
  (callType StunMessageType.ToBytes s (s.begin + 2)).andThen
    (fun s1 =>
      (MessageLengthToBytes s1 (s1.begin + 2)).andThen
        (fun s2 =>
          (MagicCookieToBytes s2 (s2.begin + 4)).andThen
            (fun s3 => TransactionIdToBytes s3 (s3.begin + 12))))

/-- The parameter `_end` is the caller's end iterator; the body never uses it. -/
def FromBytes (s : St StunMessage) (_end : Nat) : Result (St StunMessage) :=
  (callType StunMessageType.FromBytes s (s.begin + 2)).andThen
    (fun s1 =>
      (MessageLengthFromBytes s1 (s1.begin + 2)).andThen
        (fun s2 =>
          (MagicCookieFromBytes s2 (s2.begin + 4)).andThen
            (fun s3 => TransactionIdFromBytes s3 (s3.begin + 12))))

/-! ## Descriptions used in the statements -/

/-- The `uint32_t` value `MagicCookieFromBytes` accumulates from four bytes. -/
def cookieOf (b0 b1 b2 b3 : Byte) : Nat :=
  ((((0 + (b0.val <<< 24) % 2 ^ 32) % 2 ^ 32 + (b1.val <<< 16) % 2 ^ 32) % 2 ^ 32 +
    (b2.val <<< 8) % 2 ^ 32) % 2 ^ 32 + b3.val % 2 ^ 32) % 2 ^ 32

/-- The cookie value read from the four bytes at position `p`. -/
def cookieAt (buf : List Byte) (p : Nat) : Nat :=
  cookieOf (buf.getD p 0) (buf.getD (p + 1) 0) (buf.getD (p + 2) 0) (buf.getD (p + 3) 0)

/-- The twenty bytes `ToBytes` leaves in the vector, read off the closed form
of the call (`ToBytes_ok`). -/
def headerBytes (m : StunMessage) : List Byte :=
  [Byte.ofInt (Int.land m.stun_message_type_.class_ 0x02),
   Byte.ofInt ((Int.land m.stun_message_type_.class_ 0x01) <<< (4 : Int)),
   Byte.ofInt (m.message_length_ >>> SHIFT_ONE_BYTES),
   Byte.ofInt (Int.land m.message_length_ BYTE_MASK),
   0x21, 0x12, 0xA4, 0x42] ++ m.transaction_id_.val

/-- The fields `FromBytes` has assigned once the type, the length and the
cookie have been read from the eight bytes at the cursor. -/
def decoded8 (s : St StunMessage) : St StunMessage :=
  { self := { s.self with
      stun_message_type_ :=
        { class_ := ((s.buf.getD s.begin 0).shl 1).toInt +
            Int.land ((s.buf.getD (s.begin + 1) 0).toInt >>> 4) 0x1,
          method_ := StunMethod.BINDING },
      message_length_ := (s.buf.getD (s.begin + 2) 0).toInt <<< (SHIFT_ONE_BYTES : Int) +
        Int.land (s.buf.getD (s.begin + 3) 0).toInt 0xFF,
      magic_cookie_ := cookieAt s.buf (s.begin + 4) },
    buf := s.buf, begin := s.begin + 8 }

end StunMessage

/-- The bytes of a vector at positions `p, …, p + n - 1`. -/
def bytesAt (buf : List Byte) (p n : Nat) : List Byte := (buf.drop p).take n

/-! ## Attributes -/

/-- The scoped enumeration `AttributeTypes`, underlying type `int`. -/
abbrev AttributeTypes := Int

def AttributeTypes.MAPPED_ADDRESS : AttributeTypes := 0x0001
def AttributeTypes.USERNAME : AttributeTypes := 0x0006
def AttributeTypes.MESSAGE_INTEGRITY : AttributeTypes := 0x0008
def AttributeTypes.ERROR_CODE : AttributeTypes := 0x0009
def AttributeTypes.UNKNOWN_ATTRIBUTES : AttributeTypes := 0x000A
def AttributeTypes.REALM : AttributeTypes := 0x0014
def AttributeTypes.NONCE : AttributeTypes := 0x0015
def AttributeTypes.XOR_MAPPED_ADDRESS : AttributeTypes := 0x0020
def AttributeTypes.SOFTWARE : AttributeTypes := 0x8022
def AttributeTypes.ALTERNATE_SERVER : AttributeTypes := 0x8023
def AttributeTypes.FINGERPRINT : AttributeTypes := 0x8028

/-- The scoped enumeration `AddressFamilies`, underlying type `int`. -/
abbrev AddressFamilies := Int

def AddressFamilies.IPv4 : AddressFamilies := 1
def AddressFamilies.IPv6 : AddressFamilies := 2

/-- The data members of the abstract class `StunAttribute`; `length_` is a
`uint16_t`. -/
structure StunAttribute where
  type_ : AttributeTypes
  length_ : Nat
deriving DecidableEq, Repr

namespace StunAttribute

/-- The constructor `StunAttribute(type, length)`; the argument is converted
to `uint16_t`. -/
def mk_ (type : AttributeTypes) (length : Nat) : StunAttribute :=
  { type_ := type, length_ := length % 2 ^ 16 }

def SetLength (self : StunAttribute) (length : Nat) : StunAttribute :=
  { self with length_ := length % 2 ^ 16 }

/-- The body has no length test and never uses `_end`. -/
def StunAttributeHeaderToBytes (s : St StunAttribute) (_end : Nat) : Result (St StunAttribute) :=
  (store s (Byte.ofInt (Int.land (s.self.type_ >>> 8) BYTE_MASK))).andThen
    (fun s1 =>
      (store s1 (Byte.ofInt (Int.land s1.self.type_ BYTE_MASK))).andThen
        (fun s2 =>
          (store s2 (Byte.ofNat ((s2.self.length_ >>> 8) &&& BYTE_MASK))).andThen
            (fun s3 => store s3 (Byte.ofNat (s3.self.length_ &&& BYTE_MASK)))))

end StunAttribute

/-- The class `MappedAddress`: the base-class members with `port_`
(`uint16_t`), `address_` (`uint32_t`) and `family_`. -/
structure MappedAddress extends StunAttribute where
  port_ : Nat
  address_ : Nat
  family_ : AddressFamilies
deriving DecidableEq, Repr

namespace MappedAddress

/-- The constructor `MappedAddress(port, address, family, type)`: its
initialiser list sets `port_`, `family_` and the base `(MAPPED_ADDRESS, 4)`
and ignores `type`. The body scans the dotted quad and adds the packed octets
to `address_`; the scan is outside the embedding, so `address` here is the
`uint32_t` value the body leaves in `address_`. -/
def mk_ (port : Nat) (address : Nat) (family : AddressFamilies) (_type : AttributeTypes) :
    MappedAddress :=
  { toStunAttribute := StunAttribute.mk_ AttributeTypes.MAPPED_ADDRESS 4,
    port_ := port % 2 ^ 16, address_ := address % 2 ^ 32, family_ := family }

/-- A call of a base-class member on the `StunAttribute` part of the object,
sharing the vector and the cursor. -/
def callBase (f : St StunAttribute → Nat → Result (St StunAttribute))
    (s : St MappedAddress) (end_ : Nat) : Result (St MappedAddress) :=
  let back : St StunAttribute → St MappedAddress := fun t =>
    { self := { s.self with toStunAttribute := t.self }, buf := t.buf, begin := t.begin }
  (f { self := s.self.toStunAttribute, buf := s.buf, begin := s.begin } end_).map back

/-- The body never uses `_end`. -/
def ToBytes (s : St MappedAddress) (_end : Nat) : Result (St MappedAddress) :=
  (callBase StunAttribute.StunAttributeHeaderToBytes s (s.begin + 4)).andThen
    (fun s1 =>
      (store s1 0).andThen
        (fun s2 =>
          (store s2 (Byte.ofInt s2.self.family_)).andThen
            (fun s3 =>
              (store s3 (Byte.ofNat ((s3.self.port_ >>> 8) &&& BYTE_MASK))).andThen
                (fun s4 => store s4 (Byte.ofNat (s4.self.port_ &&& BYTE_MASK))))))

/-- The empty override `FromBytes() {}`. -/
def FromBytes (self : MappedAddress) : MappedAddress := self

end MappedAddress

/-! ## Inputs used in the evaluations -/

/-- A vector of `n` zero bytes, as `std::vector<std::byte>(n, std::byte{0})`. -/
def zeros (n : Nat) : List Byte := List.replicate n 0

/-- The message of the repository's test: class INDICATION, method BINDING,
length 20, transaction ID twelve bytes `0x0C`. -/
def testMessage : StunMessage :=
  ((StunMessage.mk_ StunMessageClass.INDICATION StunMethod.BINDING).SetMessageLength 20).SetTransactionId
    (Array12.fill 12)

/-- The twenty header bytes `ToBytes` writes for `testMessage`. -/
def testHeader : List Byte :=
  [0x00, 0x10, 0x00, 0x14, 0x21, 0x12, 0xA4, 0x42,
   12, 12, 12, 12, 12, 12, 12, 12, 12, 12, 12, 12]

/-- A 20-byte header with class bits of INDICATION, length bytes `01 02` and
the cookie bytes `21 12 A4 43`. -/
def badCookieHeader : List Byte :=
  [0x00, 0x10, 0x01, 0x02, 0x21, 0x12, 0xA4, 0x43,
   12, 12, 12, 12, 12, 12, 12, 12, 12, 12, 12, 12]

/-- A well-formed 20-byte header (class bits of INDICATION, cookie
`21 12 A4 42`, twelve `0C` bytes) whose length field declares 8. -/
def lengthEightHeader : List Byte :=
  [0x00, 0x10, 0x00, 0x08, 0x21, 0x12, 0xA4, 0x42,
   12, 12, 12, 12, 12, 12, 12, 12, 12, 12, 12, 12]

/-- The big-endian 16-bit value of two bytes. -/
def be16 (b0 b1 : Byte) : Nat := b0.val * 256 + b1.val

/-- The message type of RFC 5389 section 6 for class `c` and method BINDING,
as the specification writes it: `0x0001 | ((c & 1) << 4) | ((c & 2) << 7)`. -/
def rfc5389MessageType (c : Nat) : Nat := 0x0001 ||| ((c &&& 1) <<< 4) ||| ((c &&& 2) <<< 7)

/-! ## Basic facts about the cursor primitives -/

theorem distance_add (b n : Nat) : distance b (b + n) = (n : Int) := by
  unfold distance; push_cast; ring

theorem store_ok {α : Type} (s : St α) (v : Byte) (h : s.begin < s.buf.length) :
    store s v = .ok { s with buf := s.buf.set s.begin v, begin := s.begin + 1 } := by
  unfold store; rw [if_pos h]

theorem load_ok {α : Type} (s : St α) (k : Byte → St α → Result (St α))
    (h : s.begin < s.buf.length) :
    load s k = k (s.buf.getD s.begin 0) { s with begin := s.begin + 1 } := by
  unfold load
  rw [List.getD_eq_getElem?_getD, List.getElem?_eq_getElem h]
  rfl

theorem load_none {α : Type} (s : St α) (k : Byte → St α → Result (St α))
    (h : s.buf.length ≤ s.begin) : load s k = .undefined := by
  unfold load
  rw [List.getElem?_eq_none h]

/-! ## Closed forms of the field codecs on a long enough vector -/

theorem StunMessageType.typeToBytes_ok (s : St StunMessageType) (h : s.begin + 2 ≤ s.buf.length) :
    StunMessageType.ToBytes s (s.begin + 2) =
      .ok { s with
        buf := (s.buf.set s.begin (Byte.ofInt (Int.land s.self.class_ 0x02))).set (s.begin + 1)
                (Byte.ofInt ((Int.land s.self.class_ 0x01) <<< (4 : Int))),
        begin := s.begin + 2 } := by
  unfold StunMessageType.ToBytes
  rw [distance_add, if_pos (by norm_num), store_ok s _ (by omega)]
  simp only [Result.andThen]
  rw [store_ok _ _ (by simp only [List.length_set]; omega)]

theorem StunMessageType.typeFromBytes_ok (s : St StunMessageType) (h : s.begin + 2 ≤ s.buf.length) :
    StunMessageType.FromBytes s (s.begin + 2) =
      .ok { s with
        self := { class_ := ((s.buf.getD s.begin 0).shl 1).toInt +
                    Int.land ((s.buf.getD (s.begin + 1) 0).toInt >>> 4) 0x1,
                  method_ := StunMethod.BINDING },
        begin := s.begin + 2 } := by
  unfold StunMessageType.FromBytes
  simp only
  rw [distance_add, if_pos (by norm_num), load_ok s _ (by omega),
    load_ok _ _ (by simp only; omega)]
  simp only [zero_add]

namespace StunMessage

theorem MessageLengthToBytes_ok (s : St StunMessage) (h : s.begin + 2 ≤ s.buf.length) :
    MessageLengthToBytes s (s.begin + 2) =
      .ok { s with
        buf := (s.buf.set s.begin (Byte.ofInt (s.self.message_length_ >>> SHIFT_ONE_BYTES))).set
                (s.begin + 1) (Byte.ofInt (Int.land s.self.message_length_ BYTE_MASK)),
        begin := s.begin + 2 } := by
  unfold MessageLengthToBytes
  rw [distance_add, if_pos (by norm_num), store_ok s _ (by omega)]
  simp only [Result.andThen]
  rw [store_ok _ _ (by simp only [List.length_set]; omega)]

theorem MessageLengthFromBytes_ok (s : St StunMessage) (h : s.begin + 2 ≤ s.buf.length) :
    MessageLengthFromBytes s (s.begin + 2) =
      .ok { s with
        self := { s.self with
          message_length_ := (s.buf.getD s.begin 0).toInt <<< (SHIFT_ONE_BYTES : Int) +
            Int.land (s.buf.getD (s.begin + 1) 0).toInt 0xFF },
        begin := s.begin + 2 } := by
  unfold MessageLengthFromBytes
  simp only
  rw [distance_add, if_pos (by norm_num), load_ok _ _ (by simp only; omega),
    load_ok _ _ (by simp only; omega)]
  simp only [zero_add]

theorem MagicCookieToBytes_ok (s : St StunMessage) (h : s.begin + 4 ≤ s.buf.length) :
    MagicCookieToBytes s (s.begin + 4) =
      .ok { self := { s.self with magic_cookie_ := MAGIC_COOKIE },
            buf := (((s.buf.set s.begin 0x21).set (s.begin + 1) 0x12).set (s.begin + 2) 0xA4).set
                    (s.begin + 3) 0x42,
            begin := s.begin + 4 } := by
  unfold MagicCookieToBytes
  simp only
  rw [distance_add, if_pos (by norm_num), store_ok _ _ (by simp only; omega)]
  simp only [Result.andThen]
  rw [store_ok _ _ (by simp only [List.length_set]; omega)]
  simp only
  rw [store_ok _ _ (by simp only [List.length_set]; omega)]
  simp only
  rw [store_ok _ _ (by simp only [List.length_set]; omega)]
  rfl

theorem cookieOf_eq (b0 b1 b2 b3 : Byte) :
    cookieOf b0 b1 b2 b3 = b0.val * 2 ^ 24 + b1.val * 2 ^ 16 + b2.val * 2 ^ 8 + b3.val := by
  unfold cookieOf
  simp only [Nat.shiftLeft_eq]
  have h0 := b0.isLt
  have h1 := b1.isLt
  have h2 := b2.isLt
  have h3 := b3.isLt
  omega

theorem cookieOf_eq_magic_iff (b0 b1 b2 b3 : Byte) :
    cookieOf b0 b1 b2 b3 = MAGIC_COOKIE ↔ b0 = 0x21 ∧ b1 = 0x12 ∧ b2 = 0xA4 ∧ b3 = 0x42 := by
  rw [cookieOf_eq]
  unfold MAGIC_COOKIE
  have h0 := b0.isLt
  have h1 := b1.isLt
  have h2 := b2.isLt
  have h3 := b3.isLt
  constructor
  · intro h
    exact ⟨Fin.ext (show b0.val = 0x21 by omega), Fin.ext (show b1.val = 0x12 by omega),
      Fin.ext (show b2.val = 0xA4 by omega), Fin.ext (show b3.val = 0x42 by omega)⟩
  · rintro ⟨rfl, rfl, rfl, rfl⟩
    rfl

theorem MagicCookieFromBytes_ok (s : St StunMessage) (h : s.begin + 4 ≤ s.buf.length) :
    MagicCookieFromBytes s (s.begin + 4) =
      if cookieAt s.buf s.begin ≠ MAGIC_COOKIE then
        .throw .domain_error
          { self := { s.self with magic_cookie_ := cookieAt s.buf s.begin },
            buf := s.buf, begin := s.begin + 4 }
      else
        .ok
          { self := { s.self with magic_cookie_ := cookieAt s.buf s.begin },
            buf := s.buf, begin := s.begin + 4 } := by
  rcases s with ⟨⟨hl, mc, ty, ml, tid⟩, buf, b⟩
  simp only at h
  unfold MagicCookieFromBytes
  simp only
  rw [distance_add, if_pos (by norm_num), load_ok _ _ (by simp only; omega)]
  simp only [addCookie]
  rw [load_ok _ _ (by simp only; omega)]
  simp only
  rw [load_ok _ _ (by simp only; omega)]
  simp only
  rw [load_ok _ _ (by simp only; omega)]
  simp only [Result.andThen, cookieAt, cookieOf, Nat.add_assoc]

theorem TransactionIdToBytes_ok (s : St StunMessage) (h : s.begin + 12 ≤ s.buf.length) :
    TransactionIdToBytes s (s.begin + 12) =
      .ok { s with buf := s.buf.take s.begin ++ s.self.transaction_id_.val ++
                          s.buf.drop (s.begin + 12) } := by
  unfold TransactionIdToBytes
  rw [distance_add, if_pos (by norm_num), if_pos h]

theorem TransactionIdFromBytes_ok (s : St StunMessage) (h : s.begin + 12 ≤ s.buf.length) :
    TransactionIdFromBytes s (s.begin + 12) =
      .ok { s with self := { s.self with
        transaction_id_ := Array12.copyFrom s.buf s.begin h } } := by
  unfold TransactionIdFromBytes
  rw [distance_add, if_pos (by norm_num), dif_pos h]

end StunMessage

/-! ## Lists: stores and block copies -/

theorem getElem?_set_of_lt {α : Type} (l : List α) (i j : Nat) (a : α) (h : i < l.length) :
    (l.set i a)[j]? = if j = i then some a else l[j]? := by
  rw [List.getElem?_set]
  by_cases hij : i = j
  · subst hij; simp [h]
  · have : ¬ j = i := fun h => hij h.symm
    simp [hij, this]

/-- Reading a vector after eight consecutive stores at `b, …, b + 7`. -/
theorem getElem?_set8 {α : Type} (buf : List α) (b i : Nat) (v0 v1 v2 v3 v4 v5 v6 v7 : α)
    (h : b + 8 ≤ buf.length) :
    ((((((((buf.set b v0).set (b + 1) v1).set (b + 2) v2).set (b + 3) v3).set
      (b + 4) v4).set (b + 5) v5).set (b + 6) v6).set (b + 7) v7)[i]? =
      if i < b ∨ b + 8 ≤ i then buf[i]? else [v0, v1, v2, v3, v4, v5, v6, v7][i - b]? := by
  repeat rw [getElem?_set_of_lt _ _ _ _ (by simp only [List.length_set]; omega)]
  rw [getElem?_set_of_lt _ _ _ _ (by omega)]
  by_cases hi : i < b ∨ b + 8 ≤ i
  · rw [if_pos hi]
    repeat rw [if_neg (by omega)]
  · rw [if_neg hi]
    obtain ⟨k, rfl, hk⟩ : ∃ k, i = b + k ∧ k < 8 := ⟨i - b, by omega, by omega⟩
    rw [Nat.add_sub_cancel_left]
    interval_cases k <;> simp

/-- Eight consecutive stores followed by a 12-element block copy rewrite the
twenty positions from `b` and nothing else. -/
theorem set8_copy12 {α : Type} (buf : List α) (b : Nat) (v0 v1 v2 v3 v4 v5 v6 v7 : α)
    (t : List α) (ht : t.length = 12) (h : b + 20 ≤ buf.length) :
    ((((((((buf.set b v0).set (b + 1) v1).set (b + 2) v2).set (b + 3) v3).set
      (b + 4) v4).set (b + 5) v5).set (b + 6) v6).set (b + 7) v7).take (b + 8) ++ t ++
      ((((((((buf.set b v0).set (b + 1) v1).set (b + 2) v2).set (b + 3) v3).set
      (b + 4) v4).set (b + 5) v5).set (b + 6) v6).set (b + 7) v7).drop (b + 20) =
      buf.take b ++ ([v0, v1, v2, v3, v4, v5, v6, v7] ++ t) ++ buf.drop (b + 20) := by
  apply List.ext_getElem?
  intro i
  have h8 := fun j => getElem?_set8 buf b j v0 v1 v2 v3 v4 v5 v6 v7 (by omega)
  simp only [List.getElem?_append, List.getElem?_take, List.getElem?_drop, List.length_take,
    List.length_append, List.length_set, ht, h8, List.length_cons, List.length_nil]
  have e1 : min (b + 8) buf.length = b + 8 := by omega
  have e2 : min b buf.length = b := by omega
  rw [e1, e2]
  by_cases c1 : i < b
  · simp [c1, show i < b + 8 from by omega, show i < b + 8 + 12 by omega, show i < b + 20 by omega]
  · obtain ⟨k, rfl⟩ : ∃ k, i = b + k := ⟨i - b, by omega⟩
    by_cases c2 : k < 8
    · simp [c2, show b + k < b + 8 + 12 by omega, show k < 20 by omega]
    · by_cases c3 : k < 20
      · simp [c2, c3, show b + k < b + 8 + 12 by omega, show b + k - (b + 8) = k - 8 by omega]
      · simp [c2, c3, show ¬ b + k < b + 8 + 12 by omega]
        intros
        omega

theorem bytesAt_splice (buf hdr : List Byte) (b k n : Nat) (hb : b ≤ buf.length)
    (hk : k + n ≤ hdr.length) (post : List Byte) :
    bytesAt (buf.take b ++ hdr ++ post) (b + k) n = (hdr.drop k).take n := by
  unfold bytesAt
  have hl : (buf.take b).length = b := by rw [List.length_take]; omega
  have hd := @List.drop_append _ (buf.take b) (hdr ++ post) k
  rw [hl] at hd
  rw [List.append_assoc, hd, List.drop_append_of_le_length (by omega),
    List.take_append_of_le_length (by rw [List.length_drop]; omega)]

theorem getElem?_splice_outside (buf hdr post : List Byte) (b i : Nat) (hb : b ≤ buf.length)
    (hi : i < b) : (buf.take b ++ hdr ++ post)[i]? = buf[i]? := by
  have hl : (buf.take b).length = b := by rw [List.length_take]; omega
  rw [List.append_assoc, List.getElem?_append_left (by omega), List.getElem?_take, if_pos hi]

namespace StunMessage

theorem headerBytes_length (m : StunMessage) : (headerBytes m).length = 20 := by
  unfold headerBytes
  rw [List.length_append, m.transaction_id_.property]
  rfl

/-- On a vector with twenty bytes from the cursor `ToBytes` returns: the
twenty bytes become `headerBytes`, the cursor has moved by eight, the stored
cookie is the constant. -/
theorem ToBytes_ok (s : St StunMessage) (e : Nat) (h : s.begin + 20 ≤ s.buf.length) :
    ToBytes s e =
      .ok { self := { s.self with magic_cookie_ := MAGIC_COOKIE },
            buf := s.buf.take s.begin ++ headerBytes s.self ++ s.buf.drop (s.begin + 20),
            begin := s.begin + 8 } := by
  rcases s with ⟨⟨hl, mc, ty, ml, tid⟩, buf, b⟩
  simp only at h
  unfold ToBytes callType
  simp only
  rw [StunMessageType.typeToBytes_ok _ (by simp only; omega)]
  simp only [Result.map, Result.andThen]
  rw [MessageLengthToBytes_ok _ (by simp only [List.length_set]; omega)]
  simp only
  rw [MagicCookieToBytes_ok _ (by simp only [List.length_set]; omega)]
  simp only
  rw [TransactionIdToBytes_ok _ (by simp only [List.length_set]; omega)]
  simp only [Nat.add_assoc, Nat.reduceAdd, headerBytes]
  rw [set8_copy12 buf b _ _ _ _ _ _ _ _ tid.val tid.property h]

/-- With eight bytes from the cursor the three reading steps run to the cookie
test; the transaction ID is copied only when the test passes. -/
theorem FromBytes_eq (s : St StunMessage) (e : Nat) (h : s.begin + 8 ≤ s.buf.length) :
    FromBytes s e =
      if cookieAt s.buf (s.begin + 4) ≠ MAGIC_COOKIE then .throw .domain_error (decoded8 s)
      else TransactionIdFromBytes (decoded8 s) (s.begin + 8 + 12) := by
  rcases s with ⟨⟨hl, mc, ty, ml, tid⟩, buf, b⟩
  simp only at h
  unfold FromBytes callType
  simp only
  rw [StunMessageType.typeFromBytes_ok _ (by simp only; omega)]
  simp only [Result.map, Result.andThen]
  rw [MessageLengthFromBytes_ok _ (by simp only; omega)]
  simp only
  rw [MagicCookieFromBytes_ok _ (by simp only; omega)]
  simp only [Nat.add_assoc, Nat.reduceAdd, decoded8]
  by_cases hc : cookieAt buf (b + 4) = MAGIC_COOKIE
  · simp only [hc, ne_eq, not_true_eq_false, if_false]
  · simp only [hc, ne_eq, not_false_eq_true, if_true]

/-- With fewer than eight bytes from the cursor a read leaves the vector. -/
theorem FromBytes_short (s : St StunMessage) (e : Nat) (h : s.buf.length < s.begin + 8) :
    FromBytes s e = .undefined := by
  rcases s with ⟨⟨hl, mc, ty, ml, tid⟩, buf, b⟩
  simp only at h
  unfold FromBytes callType StunMessageType.FromBytes
  simp only
  rw [distance_add, if_pos (by norm_num)]
  by_cases h0 : b < buf.length
  swap
  · rw [load_none _ _ (by simp only; omega)]; rfl
  rw [load_ok _ _ (by simp only; omega)]
  simp only
  by_cases h1 : b + 1 < buf.length
  swap
  · rw [load_none _ _ (by simp only; omega)]; rfl
  rw [load_ok _ _ (by simp only; omega)]
  simp only [Result.map, Result.andThen]
  unfold MessageLengthFromBytes
  simp only
  rw [distance_add, if_pos (by norm_num)]
  by_cases h2 : b + 2 < buf.length
  swap
  · rw [load_none _ _ (by simp only; omega)]
  rw [load_ok _ _ (by simp only; omega)]
  simp only
  by_cases h3 : b + 3 < buf.length
  swap
  · rw [load_none _ _ (by simp only; omega)]
  rw [load_ok _ _ (by simp only; omega)]
  simp only
  unfold MagicCookieFromBytes
  simp only
  rw [distance_add, if_pos (by norm_num)]
  by_cases h4 : b + 4 < buf.length
  swap
  · rw [load_none _ _ (by simp only; omega)]; rfl
  rw [load_ok _ _ (by simp only; omega)]
  simp only [addCookie]
  by_cases h5 : b + 5 < buf.length
  swap
  · rw [load_none _ _ (by simp only; omega)]; rfl
  rw [load_ok _ _ (by simp only; omega)]
  simp only
  by_cases h6 : b + 6 < buf.length
  swap
  · rw [load_none _ _ (by simp only; omega)]; rfl
  rw [load_ok _ _ (by simp only; omega)]
  simp only
  rw [load_none _ _ (by simp only; omega)]; rfl

theorem tid_in_range {b n : Nat} (h : b + 20 ≤ n) : b + 8 + 12 ≤ n := by omega

/-- On a vector with twenty bytes from the cursor `FromBytes` either throws
`domain_error` at the cookie test or returns with all four fields read. -/
theorem FromBytes_ok (s : St StunMessage) (e : Nat) (h : s.begin + 20 ≤ s.buf.length) :
    FromBytes s e =
      if cookieAt s.buf (s.begin + 4) ≠ MAGIC_COOKIE then .throw .domain_error (decoded8 s)
      else .ok { decoded8 s with self := { (decoded8 s).self with
        transaction_id_ := Array12.copyFrom s.buf (s.begin + 8) (tid_in_range h) } } := by
  rw [FromBytes_eq s e (by omega)]
  split
  · rfl
  · exact TransactionIdFromBytes_ok (decoded8 s) h

end StunMessage

/-! ## Bytes at a position -/

theorem bytesAt_four (buf : List Byte) (p : Nat) (h : p + 4 ≤ buf.length) :
    bytesAt buf p 4 =
      [buf.getD p 0, buf.getD (p + 1) 0, buf.getD (p + 2) 0, buf.getD (p + 3) 0] := by
  unfold bytesAt
  apply List.ext_getElem?
  intro i
  rw [List.getElem?_take, List.getElem?_drop]
  by_cases hi : i < 4
  · rw [if_pos hi]
    interval_cases i <;>
      simp [List.getD_eq_getElem?_getD, List.getElem?_eq_getElem (show p < buf.length by omega),
        List.getElem?_eq_getElem (show p + 1 < buf.length by omega),
        List.getElem?_eq_getElem (show p + 2 < buf.length by omega),
        List.getElem?_eq_getElem (show p + 3 < buf.length by omega)]
  · rw [if_neg hi]
    obtain ⟨j, rfl⟩ : ∃ j, i = 4 + j := ⟨i - 4, by omega⟩
    simp

theorem cookieAt_eq_magic_iff (buf : List Byte) (p : Nat) (h : p + 4 ≤ buf.length) :
    StunMessage.cookieAt buf p = MAGIC_COOKIE ↔ bytesAt buf p 4 = [0x21, 0x12, 0xA4, 0x42] := by
  rw [bytesAt_four buf p h]
  unfold StunMessage.cookieAt
  rw [StunMessage.cookieOf_eq_magic_iff]
  simp

/-- The two length bytes of a length in `0..65535`: high byte `L / 256`, low
byte `L % 256`. -/
theorem length_bytes (L : Int) (h0 : 0 ≤ L) (h1 : L ≤ 65535) :
    ((Byte.ofInt (L >>> SHIFT_ONE_BYTES)).val : Int) = L / 256 ∧
      ((Byte.ofInt (Int.land L BYTE_MASK)).val : Int) = L % 256 := by
  obtain ⟨n, rfl⟩ := Int.eq_ofNat_of_zero_le h0
  have hn : n ≤ 65535 := by omega
  have hland : Int.land (n : Int) BYTE_MASK = ((n &&& 255 : Nat) : Int) := rfl
  have hshift : (n : Int) >>> SHIFT_ONE_BYTES = ((n >>> 8 : Nat) : Int) := rfl
  rw [hland, hshift, show (255 : Nat) = 2 ^ 8 - 1 from rfl, Nat.and_pow_two_sub_one_eq_mod,
    Nat.shiftRight_eq_div_pow]
  unfold Byte.ofInt Byte.ofNat
  simp only [Int.toNat_ofNat, Nat.reducePow]
  constructor <;> omega

/-! ## The claims -/

/-- Claim C1 (defect in the code): the header round trip does not hold for
class SUCCESS_RESPONSE. `ToBytes` of the message (SUCCESS_RESPONSE, BINDING,
length 0, zero transaction ID) into twenty zero bytes writes `02 00` as type
bytes; `FromBytes` of those bytes into a default-constructed message returns
with class value 4, and `operator==` between the two messages is false. -/
theorem C1_round_trip_breaks_for_success_response :
    StunMessage.ToBytes
        ⟨StunMessage.mk_ StunMessageClass.SUCCESS_RESPONSE StunMethod.BINDING, zeros 20, 0⟩ 20 =
      .ok ⟨StunMessage.mk_ StunMessageClass.SUCCESS_RESPONSE StunMethod.BINDING,
        [0x02, 0x00, 0x00, 0x00, 0x21, 0x12, 0xA4, 0x42, 0, 0, 0, 0, 0, 0, 0, 0, 0, 0, 0, 0], 8⟩ ∧
    StunMessage.FromBytes
        ⟨StunMessage.default_,
          [0x02, 0x00, 0x00, 0x00, 0x21, 0x12, 0xA4, 0x42, 0, 0, 0, 0, 0, 0, 0, 0, 0, 0, 0, 0], 0⟩ 20 =
      .ok ⟨StunMessage.mk_ 4 StunMethod.BINDING,
        [0x02, 0x00, 0x00, 0x00, 0x21, 0x12, 0xA4, 0x42, 0, 0, 0, 0, 0, 0, 0, 0, 0, 0, 0, 0], 8⟩ ∧
    StunMessage.eq (StunMessage.mk_ StunMessageClass.SUCCESS_RESPONSE StunMethod.BINDING)
      (StunMessage.mk_ 4 StunMethod.BINDING) = false := by
  refine ⟨?_, ?_, ?_⟩ <;> decide

/-- Claim C2: on a vector with at least twenty bytes from the cursor,
`StunMessage::FromBytes` throws `std::domain_error` exactly when the four
bytes at offsets 4..7 differ from `21 12 A4 42`, it returns when they are
`21 12 A4 42`, it never throws `std::length_error` there, and the two
exceptions are distinct. -/
theorem C2_bad_cookie_iff_domain_error (s : St StunMessage) (end_ : Nat)
    (h : s.begin + 20 ≤ s.buf.length) :
    ((∃ s', StunMessage.FromBytes s end_ = .throw .domain_error s') ↔
        bytesAt s.buf (s.begin + 4) 4 ≠ [0x21, 0x12, 0xA4, 0x42]) ∧
      (bytesAt s.buf (s.begin + 4) 4 = [0x21, 0x12, 0xA4, 0x42] →
        ∃ s', StunMessage.FromBytes s end_ = .ok s') ∧
      (∀ s', StunMessage.FromBytes s end_ ≠ .throw .length_error s') ∧
      Exception.domain_error ≠ Exception.length_error := by
  have hc := cookieAt_eq_magic_iff s.buf (s.begin + 4) (by omega)
  rw [StunMessage.FromBytes_ok s end_ h]
  by_cases hm : StunMessage.cookieAt s.buf (s.begin + 4) = MAGIC_COOKIE
  · have hb := hc.mp hm
    rw [if_neg (fun hne => hne hm)]
    refine ⟨⟨?_, fun h' => (h' hb).elim⟩, fun _ => ⟨_, rfl⟩, ?_, by decide⟩
    · rintro ⟨s', h'⟩
      cases h'
    · intro s' h'
      cases h'
  · have hb : bytesAt s.buf (s.begin + 4) 4 ≠ [0x21, 0x12, 0xA4, 0x42] := fun hb => hm (hc.mpr hb)
    rw [if_pos hm]
    refine ⟨⟨fun _ => hb, fun _ => ⟨_, rfl⟩⟩, fun hb' => (hb hb').elim, ?_, by decide⟩
    intro s' h'
    cases h'

/-- Witness for C2: a default-constructed message decoding `badCookieHeader`
(cookie bytes `21 12 A4 43`) at cursor 0. -/
theorem C2_bad_cookie_iff_domain_error_witness :
    (0 + 20 ≤ badCookieHeader.length) ∧
    (((∃ s', StunMessage.FromBytes ⟨StunMessage.default_, badCookieHeader, 0⟩ 20 =
          .throw .domain_error s') ↔
        bytesAt badCookieHeader (0 + 4) 4 ≠ [0x21, 0x12, 0xA4, 0x42]) ∧
      (bytesAt badCookieHeader (0 + 4) 4 = [0x21, 0x12, 0xA4, 0x42] →
        ∃ s', StunMessage.FromBytes ⟨StunMessage.default_, badCookieHeader, 0⟩ 20 = .ok s') ∧
      (∀ s', StunMessage.FromBytes ⟨StunMessage.default_, badCookieHeader, 0⟩ 20 ≠
        .throw .length_error s') ∧
      Exception.domain_error ≠ Exception.length_error) :=
  ⟨by decide, C2_bad_cookie_iff_domain_error ⟨StunMessage.default_, badCookieHeader, 0⟩ 20 (by decide)⟩

/-- Claim C3: for every message state, whatever its stored cookie, `ToBytes`
into a vector with at least twenty bytes from the cursor returns and leaves
exactly the bytes `21 12 A4 42` at offsets 4..7 from the starting cursor. -/
theorem C3_encode_writes_fixed_cookie (s : St StunMessage) (end_ : Nat)
    (h : s.begin + 20 ≤ s.buf.length) :
    ∃ s', StunMessage.ToBytes s end_ = .ok s' ∧
      bytesAt s'.buf (s.begin + 4) 4 = [0x21, 0x12, 0xA4, 0x42] := by
  refine ⟨_, StunMessage.ToBytes_ok s end_ h, ?_⟩
  simp only
  rw [bytesAt_splice s.buf _ s.begin 4 4 (by omega)
    (by rw [StunMessage.headerBytes_length]; omega) _]
  rfl

/-- Witness for C3: the state a failed decode of `badCookieHeader` leaves
behind (stored cookie `0x2112A443`), encoded into twenty zero bytes. -/
theorem C3_encode_writes_fixed_cookie_witness :
    (0 + 20 ≤ (zeros 20).length) ∧
    ∃ s', StunMessage.ToBytes
        ⟨{ StunMessage.default_ with magic_cookie_ := 0x2112A443 }, zeros 20, 0⟩ 20 = .ok s' ∧
      bytesAt s'.buf (0 + 4) 4 = [0x21, 0x12, 0xA4, 0x42] :=
  ⟨by decide, C3_encode_writes_fixed_cookie
    ⟨{ StunMessage.default_ with magic_cookie_ := 0x2112A443 }, zeros 20, 0⟩ 20 (by decide)⟩

/-- Claim C4 (defect in the code): `FromBytes` does not look at the supplied
end. On a 32-byte vector that starts with `testHeader`, with the end
iterator ten bytes after the cursor, and also with the end iterator equal to
the cursor (the empty span), the call returns normally instead of throwing
`std::length_error`, and the decoded transaction ID is the twelve bytes at
positions 8..19, all of which lie at or beyond both supplied ends. -/
theorem C4_decode_ignores_short_span :
    StunMessage.FromBytes ⟨StunMessage.default_, testHeader ++ zeros 12, 0⟩ 10 =
      .ok ⟨testMessage, testHeader ++ zeros 12, 8⟩ ∧
    StunMessage.FromBytes ⟨StunMessage.default_, testHeader ++ zeros 12, 0⟩ 0 =
      .ok ⟨testMessage, testHeader ++ zeros 12, 8⟩ ∧
    testMessage.transaction_id_.val = bytesAt (testHeader ++ zeros 12) 8 12 := by
  exact ⟨rfl, rfl, by decide⟩

/-- Claim C5 (defect in the code): `ToBytes` does not look at the supplied
end. On a 32-byte vector of zeros with the end iterator ten bytes after the
cursor the call returns normally instead of throwing `std::length_error`, and
has written all twenty header bytes, ten of them at or beyond the supplied
end. -/
theorem C5_encode_ignores_short_span :
    StunMessage.ToBytes ⟨testMessage, zeros 32, 0⟩ 10 =
      .ok ⟨testMessage, testHeader ++ zeros 12, 8⟩ ∧
    bytesAt (testHeader ++ zeros 12) 10 10 = [12, 12, 12, 12, 12, 12, 12, 12, 12, 12] := by
  exact ⟨rfl, by decide⟩

/-- Claim C6 (defect in the code): on the message of the repository's test
(32-byte vector, cursor 0, end of the vector as end) `ToBytes` and `FromBytes`
both return with the cursor at position 8, not 20: the two transaction-ID
codecs copy with `memcpy` and never move the cursor. -/
theorem C6_cursor_stops_after_eight_bytes :
    StunMessage.ToBytes ⟨testMessage, zeros 32, 0⟩ 32 =
      .ok ⟨testMessage, testHeader ++ zeros 12, 8⟩ ∧
    StunMessage.FromBytes ⟨StunMessage.default_, testHeader ++ zeros 12, 0⟩ 32 =
      .ok ⟨testMessage, testHeader ++ zeros 12, 8⟩ ∧
    (8 : Nat) ≠ 0 + 20 := by
  exact ⟨rfl, rfl, by decide⟩

/-- Claim C7, as stated, fails: a default-constructed message decoding
`badCookieHeader` throws `std::domain_error`, and after the throw its message
type is (INDICATION, BINDING) instead of the value-initialised type, its
length is 258 instead of 0 and its stored cookie is `0x2112A443` instead of
the constant; only the transaction ID is the one it had. -/
theorem C7_failed_decode_is_not_atomic :
    StunMessage.FromBytes ⟨StunMessage.default_, badCookieHeader, 0⟩ 20 =
      .throw .domain_error
        ⟨{ StunMessage.default_ with
            stun_message_type_ := ⟨StunMessageClass.INDICATION, StunMethod.BINDING⟩,
            message_length_ := 258,
            magic_cookie_ := 0x2112A443 }, badCookieHeader, 8⟩ ∧
    StunMessage.default_.stun_message_type_ ≠ ⟨StunMessageClass.INDICATION, StunMethod.BINDING⟩ ∧
    StunMessage.default_.message_length_ ≠ 258 ∧
    StunMessage.default_.magic_cookie_ ≠ 0x2112A443 := by
  refine ⟨?_, ?_, ?_, ?_⟩ <;> decide

/-- Claim C7, amended: whenever `FromBytes` throws, the exception is
`std::domain_error`, the vector is untouched, and the transaction ID and
`header_length_` of the message are those it had before the call; the message
type, the message length and the cookie are the values read from the eight
bytes at the cursor (`decoded8`), the cookie among them differing from
`0x2112A442`. -/
theorem C7_failed_decode_keeps_transaction_id (s s' : St StunMessage) (end_ : Nat)
    (ex : Exception) (h : StunMessage.FromBytes s end_ = .throw ex s') :
    ex = .domain_error ∧
      s'.buf = s.buf ∧
      s'.self.transaction_id_ = s.self.transaction_id_ ∧
      s'.self.header_length_ = s.self.header_length_ ∧
      s' = StunMessage.decoded8 s ∧
      s'.self.magic_cookie_ ≠ MAGIC_COOKIE := by
  rcases Nat.lt_or_ge s.buf.length (s.begin + 8) with hshort | hlong
  · rw [StunMessage.FromBytes_short s end_ hshort] at h
    cases h
  · rw [StunMessage.FromBytes_eq s end_ hlong] at h
    by_cases hm : StunMessage.cookieAt s.buf (s.begin + 4) = MAGIC_COOKIE
    · rw [if_neg (fun hne => hne hm)] at h
      unfold StunMessage.TransactionIdFromBytes at h
      split at h
      · split at h <;> cases h
      · cases h
    · rw [if_pos hm] at h
      cases h
      exact ⟨rfl, rfl, rfl, rfl, rfl, hm⟩

/-- Witness for C7 (amended): the failed decode of `badCookieHeader` into a
default-constructed message. -/
theorem C7_failed_decode_keeps_transaction_id_witness :
    StunMessage.FromBytes ⟨StunMessage.default_, badCookieHeader, 0⟩ 20 =
      .throw .domain_error (StunMessage.decoded8 ⟨StunMessage.default_, badCookieHeader, 0⟩) ∧
    (Exception.domain_error = .domain_error ∧
      (StunMessage.decoded8 ⟨StunMessage.default_, badCookieHeader, 0⟩).buf = badCookieHeader ∧
      (StunMessage.decoded8 ⟨StunMessage.default_, badCookieHeader, 0⟩).self.transaction_id_ =
        StunMessage.default_.transaction_id_ ∧
      (StunMessage.decoded8 ⟨StunMessage.default_, badCookieHeader, 0⟩).self.header_length_ =
        StunMessage.default_.header_length_ ∧
      StunMessage.decoded8 ⟨StunMessage.default_, badCookieHeader, 0⟩ =
        StunMessage.decoded8 ⟨StunMessage.default_, badCookieHeader, 0⟩ ∧
      (StunMessage.decoded8 ⟨StunMessage.default_, badCookieHeader, 0⟩).self.magic_cookie_ ≠
        MAGIC_COOKIE) :=
  ⟨by decide,
    C7_failed_decode_keeps_transaction_id ⟨StunMessage.default_, badCookieHeader, 0⟩
      (StunMessage.decoded8 ⟨StunMessage.default_, badCookieHeader, 0⟩) 20 .domain_error
      (by decide)⟩

/-- Claim C8: for a message with length `L` in `0..65535`, `ToBytes` into a
vector with at least twenty bytes from the cursor returns and leaves at
offsets 2..3 the two bytes `L / 256` and `L % 256` (big-endian), and at offsets
8..19 the twelve bytes of the transaction ID, in order. -/
theorem C8_length_and_transaction_id_layout (s : St StunMessage) (end_ : Nat)
    (h : s.begin + 20 ≤ s.buf.length)
    (h0 : 0 ≤ s.self.message_length_) (h1 : s.self.message_length_ ≤ 65535) :
    ∃ s' b2 b3, StunMessage.ToBytes s end_ = .ok s' ∧
      bytesAt s'.buf (s.begin + 2) 2 = [b2, b3] ∧
      (b2.val : Int) = s.self.message_length_ / 256 ∧
      (b3.val : Int) = s.self.message_length_ % 256 ∧
      bytesAt s'.buf (s.begin + 8) 12 = s.self.transaction_id_.val := by
  have hb := length_bytes s.self.message_length_ h0 h1
  refine ⟨_, _, _, StunMessage.ToBytes_ok s end_ h, ?_, hb.1, hb.2, ?_⟩
  · simp only
    rw [bytesAt_splice s.buf _ s.begin 2 2 (by omega)
      (by rw [StunMessage.headerBytes_length]; omega) _]
    rfl
  · simp only
    rw [bytesAt_splice s.buf _ s.begin 8 12 (by omega)
      (by rw [StunMessage.headerBytes_length]) _]
    unfold StunMessage.headerBytes
    have ht := s.self.transaction_id_.property
    rw [show ∀ (a b c d e f g i : Byte) (t : List Byte),
        List.drop 8 ([a, b, c, d, e, f, g, i] ++ t) = t from fun _ _ _ _ _ _ _ _ _ => rfl]
    exact List.take_of_length_le (by omega)

/-- Witness for C8: class INDICATION, `L = 0`, transaction ID twelve bytes
`0x0C`, written into twenty zero bytes: `00 00` at offsets 2..3 and twelve
`0C` bytes at offsets 8..19. -/
theorem C8_length_and_transaction_id_layout_witness :
    (0 + 20 ≤ (zeros 20).length) ∧ ((0 : Int) ≤ 0) ∧ ((0 : Int) ≤ 65535) ∧
    ∃ s' b2 b3, StunMessage.ToBytes ⟨testMessage.SetMessageLength 0, zeros 20, 0⟩ 20 = .ok s' ∧
      bytesAt s'.buf (0 + 2) 2 = [b2, b3] ∧
      (b2.val : Int) = (0 : Int) / 256 ∧
      (b3.val : Int) = (0 : Int) % 256 ∧
      bytesAt s'.buf (0 + 8) 12 = [12, 12, 12, 12, 12, 12, 12, 12, 12, 12, 12, 12] :=
  ⟨by decide, by decide, by decide,
    C8_length_and_transaction_id_layout ⟨testMessage.SetMessageLength 0, zeros 20, 0⟩ 20
      (by decide) (by decide) (by decide)⟩

/-- Claim C9 (defect in the code): the two bytes `StunMessageType::ToBytes`
writes into an exactly-2-byte span are `00 00`, `00 10`, `02 00`, `02 10` for
REQUEST, INDICATION, SUCCESS_RESPONSE, ERROR_RESPONSE: the method bits are
never written and class bit 1 lands on bit 9 instead of bit 8, so none of the
four big-endian values is the RFC 5389 message type `0x0001`, `0x0011`,
`0x0101`, `0x0111`. -/
theorem C9_type_bytes_are_not_rfc5389 :
    StunMessageType.ToBytes
        ⟨StunMessageType.mk_ StunMessageClass.REQUEST StunMethod.BINDING, zeros 2, 0⟩ 2 =
      .ok ⟨StunMessageType.mk_ StunMessageClass.REQUEST StunMethod.BINDING, [0x00, 0x00], 2⟩ ∧
    StunMessageType.ToBytes
        ⟨StunMessageType.mk_ StunMessageClass.INDICATION StunMethod.BINDING, zeros 2, 0⟩ 2 =
      .ok ⟨StunMessageType.mk_ StunMessageClass.INDICATION StunMethod.BINDING, [0x00, 0x10], 2⟩ ∧
    StunMessageType.ToBytes
        ⟨StunMessageType.mk_ StunMessageClass.SUCCESS_RESPONSE StunMethod.BINDING, zeros 2, 0⟩ 2 =
      .ok ⟨StunMessageType.mk_ StunMessageClass.SUCCESS_RESPONSE StunMethod.BINDING,
        [0x02, 0x00], 2⟩ ∧
    StunMessageType.ToBytes
        ⟨StunMessageType.mk_ StunMessageClass.ERROR_RESPONSE StunMethod.BINDING, zeros 2, 0⟩ 2 =
      .ok ⟨StunMessageType.mk_ StunMessageClass.ERROR_RESPONSE StunMethod.BINDING,
        [0x02, 0x10], 2⟩ ∧
    [be16 0x00 0x00, be16 0x00 0x10, be16 0x02 0x00, be16 0x02 0x10] =
      [0x0000, 0x0010, 0x0200, 0x0210] ∧
    [rfc5389MessageType 0, rfc5389MessageType 1, rfc5389MessageType 2, rfc5389MessageType 3] =
      [0x0001, 0x0011, 0x0101, 0x0111] := by
  refine ⟨?_, ?_, ?_, ?_, ?_, ?_⟩ <;> decide

/-- Claim C10 (defect in the code): the message-type round trip does not hold
for class SUCCESS_RESPONSE. `StunMessageType::ToBytes` writes `02 00` into the
2-byte span, `StunMessageType::FromBytes` reads class value 4 back from it,
and `operator==` between the original and the decoded type is false. -/
theorem C10_type_round_trip_breaks_for_success_response :
    StunMessageType.ToBytes
        ⟨StunMessageType.mk_ StunMessageClass.SUCCESS_RESPONSE StunMethod.BINDING, zeros 2, 0⟩ 2 =
      .ok ⟨StunMessageType.mk_ StunMessageClass.SUCCESS_RESPONSE StunMethod.BINDING,
        [0x02, 0x00], 2⟩ ∧
    StunMessageType.FromBytes ⟨StunMessageType.default_, [0x02, 0x00], 0⟩ 2 =
      .ok ⟨StunMessageType.mk_ 4 StunMethod.BINDING, [0x02, 0x00], 2⟩ ∧
    StunMessageType.eq (StunMessageType.mk_ StunMessageClass.SUCCESS_RESPONSE StunMethod.BINDING)
      (StunMessageType.mk_ 4 StunMethod.BINDING) = false := by
  refine ⟨?_, ?_, ?_⟩ <;> decide

/-! ## The attribute header -/

/-- Four consecutive stores rewrite the four positions from `b` and nothing
else. -/
theorem set4_eq {α : Type} (buf : List α) (b : Nat) (v0 v1 v2 v3 : α) (h : b + 4 ≤ buf.length) :
    (((buf.set b v0).set (b + 1) v1).set (b + 2) v2).set (b + 3) v3 =
      buf.take b ++ [v0, v1, v2, v3] ++ buf.drop (b + 4) := by
  apply List.ext_getElem?
  intro i
  repeat rw [getElem?_set_of_lt _ _ _ _ (by simp only [List.length_set]; omega)]
  rw [getElem?_set_of_lt _ _ _ _ (by omega)]
  simp only [List.getElem?_append, List.getElem?_take, List.getElem?_drop, List.length_take,
    List.length_append, List.length_cons, List.length_nil]
  have e2 : min b buf.length = b := by omega
  rw [e2]
  by_cases c1 : i < b
  · simp [c1, show i ≠ b + 3 by omega, show i ≠ b + 2 by omega, show i ≠ b + 1 by omega,
      show i ≠ b by omega, show i < b + 4 by omega]
  · obtain ⟨k, rfl⟩ : ∃ k, i = b + k := ⟨i - b, by omega⟩
    by_cases c2 : k < 4
    · interval_cases k <;> simp
    · simp [c2, show ¬ b + k < b + 4 by omega, show b + k ≠ b + 3 by omega,
        show b + k ≠ b + 2 by omega, show b + k ≠ b + 1 by omega, show ¬ k = 0 by omega]
      congr 1
      omega

theorem StunAttribute.headerToBytes_ok (s : St StunAttribute) (e : Nat)
    (h : s.begin + 4 ≤ s.buf.length) :
    StunAttribute.StunAttributeHeaderToBytes s e =
      .ok { s with
        buf := s.buf.take s.begin ++
          [Byte.ofInt (Int.land (s.self.type_ >>> 8) BYTE_MASK),
           Byte.ofInt (Int.land s.self.type_ BYTE_MASK),
           Byte.ofNat ((s.self.length_ >>> 8) &&& BYTE_MASK),
           Byte.ofNat (s.self.length_ &&& BYTE_MASK)] ++ s.buf.drop (s.begin + 4),
        begin := s.begin + 4 } := by
  rcases s with ⟨⟨t, l⟩, buf, b⟩
  simp only at h
  unfold StunAttribute.StunAttributeHeaderToBytes
  rw [store_ok _ _ (by simp only; omega)]
  simp only [Result.andThen]
  rw [store_ok _ _ (by simp only [List.length_set]; omega)]
  simp only
  rw [store_ok _ _ (by simp only [List.length_set]; omega)]
  simp only
  rw [store_ok _ _ (by simp only [List.length_set]; omega)]
  simp only [Nat.add_assoc, Nat.reduceAdd]
  rw [set4_eq buf b _ _ _ _ h]

/-- The two bytes of an `int` in `0..0xFFFF`: high byte `t / 256`, low byte
`t % 256`. -/
theorem type_bytes (t : Int) (h0 : 0 ≤ t) (h1 : t ≤ 0xFFFF) :
    ((Byte.ofInt (Int.land (t >>> 8) BYTE_MASK)).val : Int) = t / 256 ∧
      ((Byte.ofInt (Int.land t BYTE_MASK)).val : Int) = t % 256 := by
  obtain ⟨n, rfl⟩ := Int.eq_ofNat_of_zero_le h0
  have hn : n ≤ 65535 := by omega
  have hhi : Int.land ((n : Int) >>> 8) BYTE_MASK = (((n >>> 8) &&& 255 : Nat) : Int) := rfl
  have hlo : Int.land (n : Int) BYTE_MASK = ((n &&& 255 : Nat) : Int) := rfl
  rw [hhi, hlo, show (255 : Nat) = 2 ^ 8 - 1 from rfl, Nat.and_pow_two_sub_one_eq_mod,
    Nat.and_pow_two_sub_one_eq_mod, Nat.shiftRight_eq_div_pow]
  unfold Byte.ofInt Byte.ofNat
  simp only [Int.toNat_ofNat, Nat.reducePow]
  constructor <;> omega

/-- The two bytes of a `uint16_t`: high byte `l / 256`, low byte `l % 256`. -/
theorem u16_bytes (l : Nat) (h : l < 65536) :
    (Byte.ofNat ((l >>> 8) &&& BYTE_MASK)).val = l / 256 ∧
      (Byte.ofNat (l &&& BYTE_MASK)).val = l % 256 := by
  unfold BYTE_MASK Byte.ofNat
  rw [show (255 : Nat) = 2 ^ 8 - 1 from rfl, Nat.and_pow_two_sub_one_eq_mod,
    Nat.and_pow_two_sub_one_eq_mod, Nat.shiftRight_eq_div_pow]
  simp only [Nat.reducePow]
  constructor <;> omega

/-! ## Bit-level facts about the decoded fields -/

/-- The `int` expression `c & 0x02` is 0 or 2 for every `int`. -/
theorem land_two (c : Int) : Int.land c 0x02 = 0 ∨ Int.land c 0x02 = 2 := by
  cases c with
  | ofNat n =>
    have h : Int.land (Int.ofNat n) 0x02 = ((n &&& 2 ^ 1 : Nat) : Int) := rfl
    rw [h, Nat.and_two_pow]
    cases n.testBit 1
    · left; rfl
    · right; rfl
  | negSucc m =>
    have h : Int.land (Int.negSucc m) 0x02 = ((Nat.ldiff (2 ^ 1) m : Nat) : Int) := rfl
    rw [h]
    cases hm : m.testBit 1
    · right
      have : Nat.ldiff (2 ^ 1) m = 2 ^ 1 := by
        apply Nat.eq_of_testBit_eq
        intro k
        rw [Nat.testBit_ldiff, Nat.testBit_two_pow]
        by_cases hk : 1 = k
        · subst hk; simp [hm]
        · simp [hk]
      rw [this]; rfl
    · left
      have : Nat.ldiff (2 ^ 1) m = 0 := by
        apply Nat.eq_of_testBit_eq
        intro k
        rw [Nat.testBit_ldiff, Nat.testBit_two_pow]
        by_cases hk : 1 = k
        · subst hk; simp [hm]
        · simp [hk]
      rw [this]; rfl

/-- The class value `FromBytes` computes from two bytes, in plain arithmetic. -/
theorem decoded_class (b0 b1 : Byte) :
    (b0.shl 1).toInt + Int.land (b1.toInt >>> 4) 0x1 =
      ((2 * b0.val % 256 + b1.val / 16 % 2 : Nat) : Int) := by
  have h1 : Int.land (b1.toInt >>> 4) 0x1 = (((b1.val >>> 4) &&& 1 : Nat) : Int) := rfl
  rw [h1, Nat.and_one_is_mod, Nat.shiftRight_eq_div_pow]
  unfold Byte.shl Byte.toInt Byte.ofNat
  simp only [Nat.shiftLeft_eq, Nat.reducePow]
  push_cast
  omega

/-- The length value `MessageLengthFromBytes` computes from two bytes. -/
theorem decoded_length (b2 b3 : Byte) :
    b2.toInt <<< (SHIFT_ONE_BYTES : Int) + Int.land b3.toInt 0xFF =
      ((256 * b2.val + b3.val : Nat) : Int) := by
  have h1 : Int.land b3.toInt 0xFF = ((b3.val &&& (2 ^ 8 - 1) : Nat) : Int) := rfl
  have h3 := b3.isLt
  rw [h1, Nat.and_pow_two_sub_one_eq_mod]
  unfold Byte.toInt SHIFT_ONE_BYTES
  rw [Int.shiftLeft_eq_mul_pow]
  push_cast
  omega

theorem getElem?_splice_inside (buf hdr post : List Byte) (b k : Nat) (hb : b ≤ buf.length)
    (hk : k < hdr.length) : (buf.take b ++ hdr ++ post)[b + k]? = hdr[k]? := by
  have hl : (buf.take b).length = b := by rw [List.length_take]; omega
  rw [List.append_assoc, List.getElem?_append_right (by omega), hl, Nat.add_sub_cancel_left,
    List.getElem?_append_left hk]

theorem getElem?_splice_after (buf hdr : List Byte) (b i : Nat) (hb : b + hdr.length ≤ buf.length)
    (hi : b + hdr.length ≤ i) :
    (buf.take b ++ hdr ++ buf.drop (b + hdr.length))[i]? = buf[i]? := by
  have hl : (buf.take b).length = b := by rw [List.length_take]; omega
  rw [List.getElem?_append_right (by rw [List.length_append, hl]; omega), List.length_append, hl,
    List.getElem?_drop]
  congr 1
  omega

theorem getD_splice_inside (buf hdr post : List Byte) (b k : Nat) (hb : b ≤ buf.length)
    (hk : k < hdr.length) : (buf.take b ++ hdr ++ post).getD (b + k) 0 = hdr.getD k 0 := by
  rw [List.getD_eq_getElem?_getD, List.getD_eq_getElem?_getD,
    getElem?_splice_inside buf hdr post b k hb hk]

theorem length_splice (buf hdr : List Byte) (b : Nat) (hb : b + hdr.length ≤ buf.length) :
    (buf.take b ++ hdr ++ buf.drop (b + hdr.length)).length = buf.length := by
  rw [List.length_append, List.length_append, List.length_take, List.length_drop]
  omega

/-! ## Decoding an encoded header -/

theorem StunMessage.eq_self (m : StunMessage) : StunMessage.eq m m = true := by
  simp [StunMessage.eq, StunMessageType.eq]

theorem length_written (buf : List Byte) (m : StunMessage) (b : Nat) (h : b + 20 ≤ buf.length) :
    (buf.take b ++ StunMessage.headerBytes m ++ buf.drop (b + 20)).length = buf.length := by
  rw [List.length_append, List.length_append, List.length_take, List.length_drop,
    StunMessage.headerBytes_length]
  omega

theorem drop8_header (a b c d e f g i : Byte) (t : List Byte) (ht : t.length = 12) :
    List.take 12 (List.drop 8 ([a, b, c, d, e, f, g, i] ++ t)) = t := by
  rw [show List.drop 8 ([a, b, c, d, e, f, g, i] ++ t) = t from rfl]
  exact List.take_of_length_le (by omega)

/-- `FromBytes` on the bytes `ToBytes` wrote for `m`: it returns, the cookie
is the constant, the transaction ID is that of `m`, and class and length are
the values read back from the four bytes written for the class and length of
`m`. -/
theorem StunMessage.FromBytes_written (m d : StunMessage) (buf : List Byte) (b e : Nat)
    (h : b + 20 ≤ buf.length) :
    StunMessage.FromBytes
        ⟨d, buf.take b ++ StunMessage.headerBytes m ++ buf.drop (b + 20), b⟩ e =
      .ok ⟨{ d with
          stun_message_type_ :=
            { class_ := ((Byte.ofInt (Int.land m.stun_message_type_.class_ 0x02)).shl 1).toInt +
                Int.land ((Byte.ofInt
                  ((Int.land m.stun_message_type_.class_ 0x01) <<< (4 : Int))).toInt >>> 4) 0x1,
              method_ := StunMethod.BINDING },
          message_length_ :=
            (Byte.ofInt (m.message_length_ >>> SHIFT_ONE_BYTES)).toInt <<< (SHIFT_ONE_BYTES : Int) +
              Int.land (Byte.ofInt (Int.land m.message_length_ BYTE_MASK)).toInt 0xFF,
          magic_cookie_ := MAGIC_COOKIE,
          transaction_id_ := m.transaction_id_ },
        buf.take b ++ StunMessage.headerBytes m ++ buf.drop (b + 20), b + 8⟩ := by
  have hlen := length_written buf m b h
  have hhdr := StunMessage.headerBytes_length m
  have hc : StunMessage.cookieAt
      (buf.take b ++ StunMessage.headerBytes m ++ buf.drop (b + 20)) (b + 4) = MAGIC_COOKIE := by
    rw [cookieAt_eq_magic_iff _ _ (by omega),
      bytesAt_splice buf _ b 4 4 (by omega) (by omega) _]
    rfl
  have g0 : (buf.take b ++ StunMessage.headerBytes m ++ buf.drop (b + 20)).getD b 0 =
      Byte.ofInt (Int.land m.stun_message_type_.class_ 0x02) :=
    getD_splice_inside buf _ _ b 0 (by omega) (by omega)
  have g1 : (buf.take b ++ StunMessage.headerBytes m ++ buf.drop (b + 20)).getD (b + 1) 0 =
      Byte.ofInt ((Int.land m.stun_message_type_.class_ 0x01) <<< (4 : Int)) :=
    getD_splice_inside buf _ _ b 1 (by omega) (by omega)
  have g2 : (buf.take b ++ StunMessage.headerBytes m ++ buf.drop (b + 20)).getD (b + 2) 0 =
      Byte.ofInt (m.message_length_ >>> SHIFT_ONE_BYTES) :=
    getD_splice_inside buf _ _ b 2 (by omega) (by omega)
  have g3 : (buf.take b ++ StunMessage.headerBytes m ++ buf.drop (b + 20)).getD (b + 3) 0 =
      Byte.ofInt (Int.land m.message_length_ BYTE_MASK) :=
    getD_splice_inside buf _ _ b 3 (by omega) (by omega)
  have ht : Array12.copyFrom (buf.take b ++ StunMessage.headerBytes m ++ buf.drop (b + 20))
      (b + 8) (StunMessage.tid_in_range (by omega)) = m.transaction_id_ := by
    apply Subtype.ext
    show bytesAt (buf.take b ++ StunMessage.headerBytes m ++ buf.drop (b + 20)) (b + 8) 12 = _
    rw [bytesAt_splice buf _ b 8 12 (by omega) (by omega) _]
    exact drop8_header _ _ _ _ _ _ _ _ _ m.transaction_id_.property
  rw [StunMessage.FromBytes_ok _ e (by simp only; omega), if_neg (fun hne => hne hc)]
  simp only [StunMessage.decoded8, g0, g1, g2, g3, hc, ht]

/-! ## The claims on attributes, the message type and the header state -/

/-- Claim C11 (defect in the code): `MappedAddress::ToBytes` for family IPv4,
port 3478 and address `0xC0A80001` (192.168.0.1) on a 12-byte zero vector
returns with the cursor at 8, not 12: it has written `00 01 00 04`, the
reserved zero, the family and the two port bytes `0D 96`; the declared length
is 4, not 8, and the four address bytes `C0 A8 00 01` are never written. -/
theorem C11_mapped_address_writes_no_address :
    MappedAddress.ToBytes
        ⟨MappedAddress.mk_ 3478 0xC0A80001 AddressFamilies.IPv4 AttributeTypes.MAPPED_ADDRESS,
          zeros 12, 0⟩ 12 =
      .ok ⟨MappedAddress.mk_ 3478 0xC0A80001 AddressFamilies.IPv4 AttributeTypes.MAPPED_ADDRESS,
        [0x00, 0x01, 0x00, 0x04, 0x00, 0x01, 0x0D, 0x96, 0x00, 0x00, 0x00, 0x00], 8⟩ ∧
    (MappedAddress.mk_ 3478 0xC0A80001 AddressFamilies.IPv4
      AttributeTypes.MAPPED_ADDRESS).address_ = 0xC0A80001 := by
  refine ⟨?_, ?_⟩ <;> decide

/-- Claim C12: for an attribute with type `t` in `0..0xFFFF` and 16-bit
length `l`, `StunAttributeHeaderToBytes` on a vector with four bytes from the
cursor returns with the cursor advanced by four, the object unchanged and
exactly the four bytes at the cursor rewritten: `t / 256`, `t % 256`,
`l / 256`, `l % 256`, so that the two big-endian 16-bit values are `t` and
`l`. -/
theorem C12_attribute_header_layout (s : St StunAttribute) (end_ : Nat)
    (h : s.begin + 4 ≤ s.buf.length)
    (ht0 : 0 ≤ s.self.type_) (ht1 : s.self.type_ ≤ 0xFFFF) (hl : s.self.length_ < 65536) :
    ∃ s' b0 b1 b2 b3, StunAttribute.StunAttributeHeaderToBytes s end_ = .ok s' ∧
      s'.begin = s.begin + 4 ∧ s'.self = s.self ∧
      s'.buf = s.buf.take s.begin ++ [b0, b1, b2, b3] ++ s.buf.drop (s.begin + 4) ∧
      (b0.val : Int) = s.self.type_ / 256 ∧ (b1.val : Int) = s.self.type_ % 256 ∧
      b2.val = s.self.length_ / 256 ∧ b3.val = s.self.length_ % 256 ∧
      (be16 b0 b1 : Int) = s.self.type_ ∧ be16 b2 b3 = s.self.length_ := by
  have hT := type_bytes s.self.type_ ht0 ht1
  have hL := u16_bytes s.self.length_ hl
  refine ⟨_, _, _, _, _, StunAttribute.headerToBytes_ok s end_ h, rfl, rfl, rfl,
    hT.1, hT.2, hL.1, hL.2, ?_, ?_⟩
  · unfold be16
    push_cast
    rw [hT.1, hT.2]
    omega
  · unfold be16
    rw [hL.1, hL.2]
    omega

/-- Witness for C12: type SOFTWARE (`0x8022`) and length `0x0102` written at
cursor 1 of a 6-byte zero vector. -/
theorem C12_attribute_header_layout_witness :
    (1 + 4 ≤ (zeros 6).length) ∧ ((0 : Int) ≤ AttributeTypes.SOFTWARE) ∧
    (AttributeTypes.SOFTWARE ≤ 0xFFFF) ∧ (0x0102 < 65536) ∧
    ∃ s' b0 b1 b2 b3,
      StunAttribute.StunAttributeHeaderToBytes
        ⟨⟨AttributeTypes.SOFTWARE, 0x0102⟩, zeros 6, 1⟩ 5 = .ok s' ∧
      s'.begin = 1 + 4 ∧ s'.self = ⟨AttributeTypes.SOFTWARE, 0x0102⟩ ∧
      s'.buf = (zeros 6).take 1 ++ [b0, b1, b2, b3] ++ (zeros 6).drop (1 + 4) ∧
      (b0.val : Int) = AttributeTypes.SOFTWARE / 256 ∧
      (b1.val : Int) = AttributeTypes.SOFTWARE % 256 ∧
      b2.val = 0x0102 / 256 ∧ b3.val = 0x0102 % 256 ∧
      (be16 b0 b1 : Int) = AttributeTypes.SOFTWARE ∧ be16 b2 b3 = 0x0102 :=
  ⟨by decide, by decide, by decide, by decide,
    C12_attribute_header_layout ⟨⟨AttributeTypes.SOFTWARE, 0x0102⟩, zeros 6, 1⟩ 5
      (by decide) (by decide) (by decide) (by decide)⟩

/-- Claim C13, as stated, fails: on a well-formed header that declares length
8 followed by only four bytes, `StunMessage::FromBytes` over the whole 24-byte
vector returns normally with message length 8; no error is raised. -/
theorem C13_declared_length_is_not_checked :
    StunMessage.FromBytes ⟨StunMessage.default_, lengthEightHeader ++ [1, 2, 3, 4], 0⟩ 24 =
      .ok ⟨testMessage.SetMessageLength 8, lengthEightHeader ++ [1, 2, 3, 4], 8⟩ ∧
    (testMessage.SetMessageLength 8).message_length_ = 8 ∧
    ([1, 2, 3, 4] : List Byte).length ≠ 8 := by
  refine ⟨?_, ?_, ?_⟩ <;> decide

/-- Claim C13, amended: `StunMessage::FromBytes` decodes the header only. For
every well-formed 20-byte header (cookie bytes `21 12 A4 42`) followed by any
bytes `rest`, as many as the length field declares or not, the call returns,
leaves the vector as it was and stores as message length the big-endian value
of header bytes 2..3. -/
theorem C13_decode_reads_header_only (m : StunMessage) (hdr rest : List Byte) (end_ : Nat)
    (hlen : hdr.length = 20) (hcookie : bytesAt hdr 4 4 = [0x21, 0x12, 0xA4, 0x42]) :
    ∃ s', StunMessage.FromBytes ⟨m, hdr ++ rest, 0⟩ end_ = .ok s' ∧
      s'.buf = hdr ++ rest ∧
      s'.self.message_length_ = (be16 (hdr.getD 2 0) (hdr.getD 3 0) : Int) := by
  have h20 : (⟨m, hdr ++ rest, 0⟩ : St StunMessage).begin + 20 ≤
      (⟨m, hdr ++ rest, 0⟩ : St StunMessage).buf.length := by
    simp only [List.length_append, hlen]; omega
  have hb : bytesAt (hdr ++ rest) (0 + 4) 4 = [0x21, 0x12, 0xA4, 0x42] := by
    rw [← hcookie]
    unfold bytesAt
    rw [List.drop_append_of_le_length (by omega),
      List.take_append_of_le_length (by rw [List.length_drop]; omega)]
  have hc := (cookieAt_eq_magic_iff (hdr ++ rest) (0 + 4)
    (by simp only [List.length_append, hlen]; omega)).mpr hb
  rw [StunMessage.FromBytes_ok _ end_ h20, if_neg (fun hne => hne hc)]
  refine ⟨_, rfl, rfl, ?_⟩
  simp only [StunMessage.decoded8, Nat.zero_add]
  rw [decoded_length, List.getD_append _ _ _ _ (by omega), List.getD_append _ _ _ _ (by omega)]
  unfold be16
  push_cast
  ring

/-- Witness for C13 (amended): the header declaring length 8 followed by
four bytes. -/
theorem C13_decode_reads_header_only_witness :
    (lengthEightHeader.length = 20) ∧
    (bytesAt lengthEightHeader 4 4 = [0x21, 0x12, 0xA4, 0x42]) ∧
    ∃ s', StunMessage.FromBytes ⟨StunMessage.default_, lengthEightHeader ++ [1, 2, 3, 4], 0⟩ 24 =
        .ok s' ∧
      s'.buf = lengthEightHeader ++ [1, 2, 3, 4] ∧
      s'.self.message_length_ =
        (be16 (lengthEightHeader.getD 2 0) (lengthEightHeader.getD 3 0) : Int) :=
  ⟨by decide, by decide,
    C13_decode_reads_header_only StunMessage.default_ lengthEightHeader [1, 2, 3, 4] 24
      (by decide) (by decide)⟩

/-- Claim C14: `StunMessageType::FromBytes` throws `std::length_error` exactly
when the span from `begin` to `end` is not two bytes long, and then the state
at the throw is the state before the call: cursor, class and method are
untouched. -/
theorem C14_type_decode_length_check (s : St StunMessageType) (end_ : Nat) :
    ((∃ s', StunMessageType.FromBytes s end_ = .throw .length_error s') ↔
        distance s.begin end_ ≠ 2) ∧
      (∀ s', StunMessageType.FromBytes s end_ = .throw .length_error s' → s' = s) := by
  by_cases hd : distance s.begin end_ = 2
  · have hno : ∀ s', StunMessageType.FromBytes s end_ ≠ .throw .length_error s' := by
      intro s' h
      unfold StunMessageType.FromBytes at h
      simp only [hd, if_true] at h
      unfold load at h
      split at h
      · simp only at h
        split at h <;> cases h
      · cases h
    exact ⟨⟨fun ⟨s', h⟩ => (hno s' h).elim, fun h => (h hd).elim⟩, fun s' h => (hno s' h).elim⟩
  · have hthrow : StunMessageType.FromBytes s end_ = .throw .length_error s := by
      unfold StunMessageType.FromBytes
      simp only [hd, if_false]
    refine ⟨⟨fun _ => hd, fun _ => ⟨s, hthrow⟩⟩, ?_⟩
    intro s' h
    rw [hthrow] at h
    cases h
    rfl

/-- Witness for C14: a three-byte span; the call throws and the state at the
throw is the initial one. -/
theorem C14_type_decode_length_check_witness :
    distance 0 3 ≠ 2 ∧
    ∃ s', StunMessageType.FromBytes
        ⟨StunMessageType.mk_ StunMessageClass.ERROR_RESPONSE 0, zeros 3, 0⟩ 3 =
          .throw .length_error s' ∧
      s' = ⟨StunMessageType.mk_ StunMessageClass.ERROR_RESPONSE 0, zeros 3, 0⟩ :=
  ⟨by decide,
    ⟨⟨StunMessageType.mk_ StunMessageClass.ERROR_RESPONSE 0, zeros 3, 0⟩, by decide,
      (C14_type_decode_length_check
        ⟨StunMessageType.mk_ StunMessageClass.ERROR_RESPONSE 0, zeros 3, 0⟩ 3).2 _ (by decide)⟩⟩

/-- Claim C15: on every two-byte span inside the vector, whatever the two
bytes and whatever the method stored before, `StunMessageType::FromBytes`
returns with the method set to BINDING and the cursor after the two bytes. -/
theorem C15_decoded_method_is_binding (s : St StunMessageType)
    (h : s.begin + 2 ≤ s.buf.length) :
    ∃ s', StunMessageType.FromBytes s (s.begin + 2) = .ok s' ∧
      s'.self.method_ = StunMethod.BINDING ∧ s'.begin = s.begin + 2 :=
  ⟨_, StunMessageType.typeFromBytes_ok s h, rfl, rfl⟩

/-- Witness for C15: the bytes `FF FF`, whose twelve method bits are not
those of Binding, decoded into a value-initialised type (method 0). -/
theorem C15_decoded_method_is_binding_witness :
    (0 + 2 ≤ ([0xFF, 0xFF] : List Byte).length) ∧
    ∃ s', StunMessageType.FromBytes ⟨StunMessageType.default_, [0xFF, 0xFF], 0⟩ (0 + 2) = .ok s' ∧
      s'.self.method_ = StunMethod.BINDING ∧ s'.begin = 0 + 2 :=
  ⟨by decide, C15_decoded_method_is_binding ⟨StunMessageType.default_, [0xFF, 0xFF], 0⟩ (by decide)⟩

/-- Claim C16: for every integer class value and every method, the first byte
`StunMessageType::ToBytes` writes into a two-byte span has its two most
significant bits zero (`byte & 0xC0 = 0`), and so has byte 0 of the header
`StunMessage::ToBytes` writes into a vector with twenty bytes from the
cursor. -/
theorem C16_leading_bits_are_zero (t : St StunMessageType) (m : St StunMessage) (end_ : Nat)
    (ht : t.begin + 2 ≤ t.buf.length) (hm : m.begin + 20 ≤ m.buf.length) :
    (∃ t' b0, StunMessageType.ToBytes t (t.begin + 2) = .ok t' ∧
        t'.buf[t.begin]? = some b0 ∧ b0.val &&& 0xC0 = 0) ∧
      (∃ m' b0, StunMessage.ToBytes m end_ = .ok m' ∧
        m'.buf[m.begin]? = some b0 ∧ b0.val &&& 0xC0 = 0) := by
  have hbits : ∀ c : Int, (Byte.ofInt (Int.land c 0x02)).val &&& 0xC0 = 0 := by
    intro c
    rcases land_two c with h | h <;> rw [h] <;> decide
  constructor
  · refine ⟨_, _, StunMessageType.typeToBytes_ok t ht, ?_, hbits t.self.class_⟩
    simp only
    rw [getElem?_set_of_lt _ _ _ _ (by simp only [List.length_set]; omega),
      if_neg (by omega), getElem?_set_of_lt _ _ _ _ (by omega), if_pos rfl]
  · refine ⟨_, _, StunMessage.ToBytes_ok m end_ hm, ?_, hbits m.self.stun_message_type_.class_⟩
    simp only
    exact getElem?_splice_inside m.buf (StunMessage.headerBytes m.self)
      (m.buf.drop (m.begin + 20)) m.begin 0 (by omega)
      (by rw [StunMessage.headerBytes_length]; omega)

/-- Witness for C16: the class value `-1` (all bits set) in a two-byte span,
and ERROR_RESPONSE in a 20-byte header. -/
theorem C16_leading_bits_are_zero_witness :
    (0 + 2 ≤ (zeros 2).length) ∧ (0 + 20 ≤ (zeros 20).length) ∧
    ((∃ t' b0, StunMessageType.ToBytes ⟨StunMessageType.mk_ (-1) StunMethod.BINDING, zeros 2, 0⟩
          (0 + 2) = .ok t' ∧
        t'.buf[0]? = some b0 ∧ b0.val &&& 0xC0 = 0) ∧
      (∃ m' b0, StunMessage.ToBytes
          ⟨StunMessage.mk_ StunMessageClass.ERROR_RESPONSE StunMethod.BINDING, zeros 20, 0⟩ 20 =
            .ok m' ∧
        m'.buf[0]? = some b0 ∧ b0.val &&& 0xC0 = 0)) :=
  ⟨by decide, by decide,
    C16_leading_bits_are_zero ⟨StunMessageType.mk_ (-1) StunMethod.BINDING, zeros 2, 0⟩
      ⟨StunMessage.mk_ StunMessageClass.ERROR_RESPONSE StunMethod.BINDING, zeros 20, 0⟩ 20
      (by decide) (by decide)⟩

/-- Claim C17: for class REQUEST or INDICATION, method BINDING, a length `L`
in `0..65535` and any transaction ID, `ToBytes` of the message into a vector
with twenty bytes from the cursor returns, `FromBytes` from the same position
into a default-constructed message returns, and the decoded message equals
the original under `operator==` (it is the very same message). -/
theorem C17_round_trip_request_indication (c : StunMessageClass) (L : Int) (t : Array12)
    (buf : List Byte) (b e1 e2 : Nat)
    (hc : c = StunMessageClass.REQUEST ∨ c = StunMessageClass.INDICATION)
    (h0 : 0 ≤ L) (h1 : L ≤ 65535) (h : b + 20 ≤ buf.length) :
    ∃ s1 s2,
      StunMessage.ToBytes
        ⟨((StunMessage.mk_ c StunMethod.BINDING).SetMessageLength L).SetTransactionId t, buf, b⟩
        e1 = .ok s1 ∧
      StunMessage.FromBytes ⟨StunMessage.default_, s1.buf, b⟩ e2 = .ok s2 ∧
      StunMessage.eq
        (((StunMessage.mk_ c StunMethod.BINDING).SetMessageLength L).SetTransactionId t)
        s2.self = true ∧
      s2.self = ((StunMessage.mk_ c StunMethod.BINDING).SetMessageLength L).SetTransactionId t := by
  have hclass : ((Byte.ofInt (Int.land c 0x02)).shl 1).toInt +
      Int.land ((Byte.ofInt ((Int.land c 0x01) <<< (4 : Int))).toInt >>> 4) 0x1 = c := by
    rcases hc with rfl | rfl <;> decide
  have hlength : (Byte.ofInt (L >>> SHIFT_ONE_BYTES)).toInt <<< (SHIFT_ONE_BYTES : Int) +
      Int.land (Byte.ofInt (Int.land L BYTE_MASK)).toInt 0xFF = L := by
    have hb := length_bytes L h0 h1
    rw [decoded_length]
    push_cast
    rw [hb.1, hb.2]
    omega
  have hdec := StunMessage.FromBytes_written
    (((StunMessage.mk_ c StunMethod.BINDING).SetMessageLength L).SetTransactionId t)
    StunMessage.default_ buf b e2 h
  have hfields : ∀ bf p, (⟨{ StunMessage.default_ with
        stun_message_type_ := { class_ := c, method_ := StunMethod.BINDING },
        message_length_ := L,
        magic_cookie_ := MAGIC_COOKIE,
        transaction_id_ := t }, bf, p⟩ : St StunMessage) =
      ⟨((StunMessage.mk_ c StunMethod.BINDING).SetMessageLength L).SetTransactionId t, bf, p⟩ :=
    fun _ _ => rfl
  simp only [StunMessage.mk_, StunMessageType.mk_, StunMessage.SetMessageLength,
    StunMessage.SetTransactionId] at hdec hfields ⊢
  rw [hclass, hlength, hfields] at hdec
  refine ⟨_, _, StunMessage.ToBytes_ok _ e1 h, hdec, StunMessage.eq_self _, rfl⟩

/-- Witness for C17: the repository's test (INDICATION, length 20, twelve
`0C` bytes) on a 32-byte zero vector. -/
theorem C17_round_trip_request_indication_witness :
    (StunMessageClass.INDICATION = StunMessageClass.REQUEST ∨
      StunMessageClass.INDICATION = StunMessageClass.INDICATION) ∧
    ((0 : Int) ≤ 20) ∧ ((20 : Int) ≤ 65535) ∧ (0 + 20 ≤ (zeros 32).length) ∧
    ∃ s1 s2,
      StunMessage.ToBytes
        ⟨((StunMessage.mk_ StunMessageClass.INDICATION StunMethod.BINDING).SetMessageLength
          20).SetTransactionId (Array12.fill 12), zeros 32, 0⟩ 32 = .ok s1 ∧
      StunMessage.FromBytes ⟨StunMessage.default_, s1.buf, 0⟩ 32 = .ok s2 ∧
      StunMessage.eq
        (((StunMessage.mk_ StunMessageClass.INDICATION StunMethod.BINDING).SetMessageLength
          20).SetTransactionId (Array12.fill 12))
        s2.self = true ∧
      s2.self = ((StunMessage.mk_ StunMessageClass.INDICATION StunMethod.BINDING).SetMessageLength
          20).SetTransactionId (Array12.fill 12) :=
  ⟨by decide, by decide, by decide, by decide,
    C17_round_trip_request_indication StunMessageClass.INDICATION 20 (Array12.fill 12)
      (zeros 32) 0 32 32 (by decide) (by decide) (by decide) (by decide)⟩

/-- Claim C18: on a vector with twenty bytes from the cursor whose bytes at
offsets 4..7 are `21 12 A4 42`, `FromBytes` returns for any two prior message
states and leaves them equal under `operator==`: the message length is
`256 * byte[2] + byte[3]` (in `0..65535`), the cookie is `0x2112A442` and the
transaction ID is bytes 8..19 in order. -/
theorem C18_decode_depends_only_on_bytes (m1 m2 : StunMessage) (buf : List Byte)
    (b e1 e2 : Nat) (h : b + 20 ≤ buf.length)
    (hcookie : bytesAt buf (b + 4) 4 = [0x21, 0x12, 0xA4, 0x42]) :
    ∃ r1 r2,
      StunMessage.FromBytes ⟨m1, buf, b⟩ e1 = .ok r1 ∧
      StunMessage.FromBytes ⟨m2, buf, b⟩ e2 = .ok r2 ∧
      StunMessage.eq r1.self r2.self = true ∧
      r1.self.message_length_ =
        ((256 * (buf.getD (b + 2) 0).val + (buf.getD (b + 3) 0).val : Nat) : Int) ∧
      0 ≤ r1.self.message_length_ ∧ r1.self.message_length_ ≤ 65535 ∧
      r1.self.magic_cookie_ = MAGIC_COOKIE ∧
      r1.self.transaction_id_.val = bytesAt buf (b + 8) 12 := by
  have hc := (cookieAt_eq_magic_iff buf (b + 4) (by omega)).mpr hcookie
  have hlen := decoded_length (buf.getD (b + 2) 0) (buf.getD (b + 3) 0)
  have hb2 := (buf.getD (b + 2) 0).isLt
  have hb3 := (buf.getD (b + 3) 0).isLt
  have hr1 := StunMessage.FromBytes_ok ⟨m1, buf, b⟩ e1 h
  have hr2 := StunMessage.FromBytes_ok ⟨m2, buf, b⟩ e2 h
  rw [if_neg (fun hne => hne hc)] at hr1 hr2
  refine ⟨_, _, hr1, hr2, ?_, hlen, ?_, ?_, hc, rfl⟩
  · simp [StunMessage.eq, StunMessageType.eq, StunMessage.decoded8]
  · simp only [StunMessage.decoded8]
    rw [hlen]
    omega
  · simp only [StunMessage.decoded8]
    rw [hlen]
    omega

/-- Witness for C18: a default-constructed message and the state left by a
failed decode, both decoding `testHeader` followed by twelve zero bytes. -/
theorem C18_decode_depends_only_on_bytes_witness :
    (0 + 20 ≤ (testHeader ++ zeros 12).length) ∧
    (bytesAt (testHeader ++ zeros 12) (0 + 4) 4 = [0x21, 0x12, 0xA4, 0x42]) ∧
    ∃ r1 r2,
      StunMessage.FromBytes ⟨StunMessage.default_, testHeader ++ zeros 12, 0⟩ 32 = .ok r1 ∧
      StunMessage.FromBytes
        ⟨(StunMessage.mk_ StunMessageClass.ERROR_RESPONSE 7).SetMessageLength 999,
          testHeader ++ zeros 12, 0⟩ 20 = .ok r2 ∧
      StunMessage.eq r1.self r2.self = true ∧
      r1.self.message_length_ =
        ((256 * ((testHeader ++ zeros 12).getD (0 + 2) 0).val +
          ((testHeader ++ zeros 12).getD (0 + 3) 0).val : Nat) : Int) ∧
      0 ≤ r1.self.message_length_ ∧ r1.self.message_length_ ≤ 65535 ∧
      r1.self.magic_cookie_ = MAGIC_COOKIE ∧
      r1.self.transaction_id_.val = bytesAt (testHeader ++ zeros 12) (0 + 8) 12 :=
  ⟨by decide, by decide,
    C18_decode_depends_only_on_bytes StunMessage.default_
      ((StunMessage.mk_ StunMessageClass.ERROR_RESPONSE 7).SetMessageLength 999)
      (testHeader ++ zeros 12) 0 32 20 (by decide) (by decide)⟩

/-- Claim C19: `ToBytes` into a vector with twenty bytes from the cursor at
position `c` returns; the vector keeps its length and every byte outside
positions `c .. c + 19`; the message keeps its type, its length, its
transaction ID (and `header_length_`), and its stored cookie is
`0x2112A442`. -/
theorem C19_encode_frame (s : St StunMessage) (end_ : Nat) (h : s.begin + 20 ≤ s.buf.length) :
    ∃ s', StunMessage.ToBytes s end_ = .ok s' ∧
      s'.buf.length = s.buf.length ∧
      (∀ i, i < s.begin ∨ s.begin + 20 ≤ i → s'.buf[i]? = s.buf[i]?) ∧
      s'.self.stun_message_type_ = s.self.stun_message_type_ ∧
      s'.self.message_length_ = s.self.message_length_ ∧
      s'.self.transaction_id_ = s.self.transaction_id_ ∧
      s'.self.header_length_ = s.self.header_length_ ∧
      s'.self.magic_cookie_ = MAGIC_COOKIE := by
  refine ⟨_, StunMessage.ToBytes_ok s end_ h, length_written s.buf s.self s.begin h, ?_,
    rfl, rfl, rfl, rfl, rfl⟩
  intro i hi
  have hhdr := StunMessage.headerBytes_length s.self
  rcases hi with hi | hi
  · exact getElem?_splice_outside s.buf _ _ s.begin i (by omega) hi
  · have := getElem?_splice_after s.buf (StunMessage.headerBytes s.self) s.begin i
      (by omega) (by omega)
    rw [hhdr] at this
    exact this

/-- Witness for C19: the test message written at cursor 2 of a vector of
twenty-four `FF` bytes, whose stored cookie was `0`. -/
theorem C19_encode_frame_witness :
    (2 + 20 ≤ (List.replicate 24 (0xFF : Byte)).length) ∧
    ∃ s', StunMessage.ToBytes
        ⟨{ testMessage with magic_cookie_ := 0 }, List.replicate 24 0xFF, 2⟩ 24 = .ok s' ∧
      s'.buf.length = (List.replicate 24 (0xFF : Byte)).length ∧
      (∀ i, i < 2 ∨ 2 + 20 ≤ i → s'.buf[i]? = (List.replicate 24 (0xFF : Byte))[i]?) ∧
      s'.self.stun_message_type_ = testMessage.stun_message_type_ ∧
      s'.self.message_length_ = testMessage.message_length_ ∧
      s'.self.transaction_id_ = testMessage.transaction_id_ ∧
      s'.self.header_length_ = testMessage.header_length_ ∧
      s'.self.magic_cookie_ = MAGIC_COOKIE :=
  ⟨by decide,
    C19_encode_frame ⟨{ testMessage with magic_cookie_ := 0 }, List.replicate 24 0xFF, 2⟩ 24
      (by decide)⟩

/-- Claim C20, as stated, fails: from the two bytes `7F 10`
`StunMessageType::FromBytes` stores the class value 255, and from `02 00`,
the bytes `ToBytes` writes for SUCCESS_RESPONSE, it stores 4; neither is in
`0..3`. -/
theorem C20_decoded_class_can_leave_the_enumeration :
    StunMessageType.FromBytes ⟨StunMessageType.default_, [0x7F, 0x10], 0⟩ 2 =
      .ok ⟨StunMessageType.mk_ 255 StunMethod.BINDING, [0x7F, 0x10], 2⟩ ∧
    StunMessageType.ToBytes
        ⟨StunMessageType.mk_ StunMessageClass.SUCCESS_RESPONSE StunMethod.BINDING, zeros 2, 0⟩ 2 =
      .ok ⟨StunMessageType.mk_ StunMessageClass.SUCCESS_RESPONSE StunMethod.BINDING,
        [0x02, 0x00], 2⟩ ∧
    StunMessageType.FromBytes ⟨StunMessageType.default_, [0x02, 0x00], 0⟩ 2 =
      .ok ⟨StunMessageType.mk_ 4 StunMethod.BINDING, [0x02, 0x00], 2⟩ ∧
    ¬ ((255 : Int) ≤ 3) ∧ ¬ ((4 : Int) ≤ 3) := by
  refine ⟨?_, ?_, ?_, ?_, ?_⟩ <;> decide

/-- Claim C20, amended: on every two-byte span `(b0, b1)` inside the vector
`StunMessageType::FromBytes` returns and the class it stores is
`((b0 << 1) truncated to 8 bits) + ((b1 >> 4) & 1)`, that is
`2 * b0 % 256 + b1 / 16 % 2`, a value in `0..255`; it is in `0..3` exactly
when `b0 % 128 ≤ 1`. In particular, decoding the two bytes `ToBytes` writes
for REQUEST or INDICATION stores that class again. -/
theorem C20_decoded_class_range (s t : St StunMessageType) (d : StunMessageType)
    (hs : s.begin + 2 ≤ s.buf.length) (ht : t.begin + 2 ≤ t.buf.length)
    (hc : t.self.class_ = StunMessageClass.REQUEST ∨
      t.self.class_ = StunMessageClass.INDICATION) :
    (∃ s', StunMessageType.FromBytes s (s.begin + 2) = .ok s' ∧
        s'.self.class_ = ((2 * (s.buf.getD s.begin 0).val % 256 +
          (s.buf.getD (s.begin + 1) 0).val / 16 % 2 : Nat) : Int) ∧
        0 ≤ s'.self.class_ ∧ s'.self.class_ ≤ 255 ∧
        (s'.self.class_ ≤ 3 ↔ (s.buf.getD s.begin 0).val % 128 ≤ 1)) ∧
      (∃ t1 t2, StunMessageType.ToBytes t (t.begin + 2) = .ok t1 ∧
        StunMessageType.FromBytes ⟨d, t1.buf, t.begin⟩ (t.begin + 2) = .ok t2 ∧
        t2.self.class_ = t.self.class_ ∧ 0 ≤ t2.self.class_ ∧ t2.self.class_ ≤ 3) := by
  constructor
  · have hcl := decoded_class (s.buf.getD s.begin 0) (s.buf.getD (s.begin + 1) 0)
    have hb0 := (s.buf.getD s.begin 0).isLt
    have hn1 : 2 * (s.buf.getD s.begin 0).val % 256 +
        (s.buf.getD (s.begin + 1) 0).val / 16 % 2 ≤ 255 := by omega
    have hn2 : 2 * (s.buf.getD s.begin 0).val % 256 +
        (s.buf.getD (s.begin + 1) 0).val / 16 % 2 ≤ 3 ↔
        (s.buf.getD s.begin 0).val % 128 ≤ 1 := by omega
    refine ⟨_, StunMessageType.typeFromBytes_ok s hs, hcl, ?_, ?_, ?_⟩
    · simp only; rw [hcl]; exact Int.ofNat_nonneg _
    · simp only; rw [hcl]; exact_mod_cast hn1
    · simp only; rw [hcl]; exact_mod_cast hn2
  · rcases t with ⟨⟨c, mth⟩, buf, b⟩
    simp only at ht hc
    have hlen : (⟨d, (buf.set b (Byte.ofInt (Int.land c 0x02))).set (b + 1)
        (Byte.ofInt ((Int.land c 0x01) <<< (4 : Int))), b⟩ : St StunMessageType).begin + 2 ≤
        (⟨d, (buf.set b (Byte.ofInt (Int.land c 0x02))).set (b + 1)
        (Byte.ofInt ((Int.land c 0x01) <<< (4 : Int))), b⟩ : St StunMessageType).buf.length := by
      simp only [List.length_set]; omega
    have g0 : ((buf.set b (Byte.ofInt (Int.land c 0x02))).set (b + 1)
        (Byte.ofInt ((Int.land c 0x01) <<< (4 : Int)))).getD b 0 =
        Byte.ofInt (Int.land c 0x02) := by
      rw [List.getD_eq_getElem?_getD,
        getElem?_set_of_lt _ _ _ _ (by simp only [List.length_set]; omega), if_neg (by omega),
        getElem?_set_of_lt _ _ _ _ (by omega), if_pos rfl]
      rfl
    have g1 : ((buf.set b (Byte.ofInt (Int.land c 0x02))).set (b + 1)
        (Byte.ofInt ((Int.land c 0x01) <<< (4 : Int)))).getD (b + 1) 0 =
        Byte.ofInt ((Int.land c 0x01) <<< (4 : Int)) := by
      rw [List.getD_eq_getElem?_getD,
        getElem?_set_of_lt _ _ _ _ (by simp only [List.length_set]; omega), if_pos rfl]
      rfl
    have hclass : ((Byte.ofInt (Int.land c 0x02)).shl 1).toInt +
        Int.land ((Byte.ofInt ((Int.land c 0x01) <<< (4 : Int))).toInt >>> 4) 0x1 = c := by
      rcases hc with rfl | rfl <;> decide
    refine ⟨_, _, StunMessageType.typeToBytes_ok _ ht, StunMessageType.typeFromBytes_ok _ hlen,
      ?_, ?_, ?_⟩
    · simp only [g0, g1, hclass]
    · simp only [g0, g1, hclass]
      rcases hc with rfl | rfl <;> decide
    · simp only [g0, g1, hclass]
      rcases hc with rfl | rfl <;> decide

/-- Witness for C20 (amended): the bytes `7F 10` for the first part,
INDICATION for the second. -/
theorem C20_decoded_class_range_witness :
    (0 + 2 ≤ ([0x7F, 0x10] : List Byte).length) ∧ (0 + 2 ≤ (zeros 2).length) ∧
    (StunMessageClass.INDICATION = StunMessageClass.REQUEST ∨
      StunMessageClass.INDICATION = StunMessageClass.INDICATION) ∧
    ((∃ s', StunMessageType.FromBytes ⟨StunMessageType.default_, [0x7F, 0x10], 0⟩ (0 + 2) =
          .ok s' ∧
        s'.self.class_ = ((2 * (([0x7F, 0x10] : List Byte).getD 0 0).val % 256 +
          (([0x7F, 0x10] : List Byte).getD (0 + 1) 0).val / 16 % 2 : Nat) : Int) ∧
        0 ≤ s'.self.class_ ∧ s'.self.class_ ≤ 255 ∧
        (s'.self.class_ ≤ 3 ↔ (([0x7F, 0x10] : List Byte).getD 0 0).val % 128 ≤ 1)) ∧
      (∃ t1 t2, StunMessageType.ToBytes
          ⟨StunMessageType.mk_ StunMessageClass.INDICATION StunMethod.BINDING, zeros 2, 0⟩
          (0 + 2) = .ok t1 ∧
        StunMessageType.FromBytes ⟨StunMessageType.default_, t1.buf, 0⟩ (0 + 2) = .ok t2 ∧
        t2.self.class_ = StunMessageClass.INDICATION ∧ 0 ≤ t2.self.class_ ∧
        t2.self.class_ ≤ 3)) :=
  ⟨by decide, by decide, by decide,
    C20_decoded_class_range ⟨StunMessageType.default_, [0x7F, 0x10], 0⟩
      ⟨StunMessageType.mk_ StunMessageClass.INDICATION StunMethod.BINDING, zeros 2, 0⟩
      StunMessageType.default_ (by decide) (by decide) (by decide)⟩

end stunmsg
